import Mathlib

/-!
Verification of the PromptStruct core against its design specification.

The TypeScript sources are embedded shallowly:

* `src/utils/textSanitizer.ts` — `sanitizeElementContent`, modelled on
  `List Char` (JS strings) with an explicit line-level loop.
* `src/utils/elementOutput.ts` — `getProcessedElementContent`,
  `analyzeImportData`, `applyImportResolutions`.
* `src/stores/editorStore.ts` — the zustand store: state record plus the
  actions `updateStructuralElement`, `updatePrompt`, `addVersion`,
  `updateVersion`, `deleteVersion`, `deletePrompt`, `saveCurrentPrompt`,
  `setCurrentPrompt`, `cleanupOldAutoSaves`, `resetElementContent`.
  `Date.now()` is passed in as an explicit `now : Nat` argument; ISO
  `createdAt` strings compared through `Date.getTime` are modelled as `Nat`
  timestamps; JS `Record`s are association lists with JS object-spread
  semantics made explicit.

The parser/renderer (`syntaxParser.ts`) and the variable store
(`getVariable` / `isElementTemporarilyUnlinked`) are not part of the
sources; where a modelled function consumes them they appear as explicit
function parameters, documented as modelled from the specification.
-/

namespace PromptStruct

/-! ## JS strings and whitespace -/

/-- JS strings as character lists. -/
abbrev Chars := List Char

/-- Whitespace as matched by the JS `\s` class (the code points that can
occur in this code base; the exotic Unicode space family is represented by
NBSP and BOM). -/
def isJSWS (c : Char) : Bool :=
  c = ' ' || c = '\t' || c = '\n' || c = '\r' ||
    c.toNat = 11 || c.toNat = 12 || c.toNat = 160 || c.toNat = 65279

/-- JS `String.prototype.trim` on a character list. -/
def jsTrim (l : Chars) : Chars :=
  ((l.dropWhile isJSWS).reverse.dropWhile isJSWS).reverse

/-- `rawLine.replace(/\s+$/g, '')`: strip trailing whitespace. -/
def rstripLine (l : Chars) : Chars :=
  (l.reverse.dropWhile isJSWS).reverse

/-- `line.trim().length === 0`. -/
def isBlankLine (l : Chars) : Bool :=
  (jsTrim l).length = 0

/-- `content.replace(/\r\n/g, '\n')`: left-to-right, non-overlapping. -/
def normCRLF : Chars → Chars
  | [] => []
  | '\r' :: '\n' :: rest => '\n' :: normCRLF rest
  | c :: rest => c :: normCRLF rest

/-- `normalized.split('\n')`. On the empty string JS yields `['']`. -/
def splitLinesC : Chars → List Chars
  | [] => [[]]
  | c :: rest =>
    if c = '\n' then [] :: splitLinesC rest
    else
      match splitLinesC rest with
      | l :: ls => (c :: l) :: ls
      | [] => [[c]]

/-- `result.join('\n')`. -/
def joinLines : List Chars → Chars
  | [] => []
  | [l] => l
  | l :: ls => l ++ '\n' :: joinLines ls

/-! ## `sanitizeElementContent` (src/utils/textSanitizer.ts) -/

/-- The `for (const rawLine of lines)` loop of `sanitizeElementContent`:
`result` is the accumulated array, `previousBlank` the flag. -/
def collapseLoop : List Chars → List Chars → Bool → List Chars
  | [], result, _ => result
  | rawLine :: rest, result, previousBlank =>
    let line := rstripLine rawLine
    if isBlankLine line then
      if previousBlank = false ∧ result.length > 0 then
        collapseLoop rest (result ++ [[]]) true
      else
        collapseLoop rest result previousBlank
    else
      collapseLoop rest (result ++ [line]) false

/-- The trailing `while (result.length > 0 && last.trim().length === 0) pop`
loop of `sanitizeElementContent`. -/
def popTrailingBlanks (ls : List Chars) : List Chars :=
  (ls.reverse.dropWhile isBlankLine).reverse

/-- Core of `sanitizeElementContent` on a character list. -/
def sanitizeCore (cs : Chars) : Chars :=
  joinLines (popTrailingBlanks (collapseLoop (splitLinesC (normCRLF cs)) [] false))

/-- `sanitizeElementContent(content: string | undefined | null): string`.
`none` stands for `undefined`/`null`; `if (!content) return ''` also fires
on the empty string. -/
def sanitizeElementContent (content : Option String) : String :=
  match content with
  | none => ""
  | some s => if s = "" then "" else String.mk (sanitizeCore s.toList)

/-! ## Specification-side sanitizer (§4.3 of the spec, for the refinement
claim): normalize CRLF, strip trailing whitespace per line, collapse every
run of blank lines to one blank line but only once non-blank content
exists (leading blank lines produce none), strip trailing blank lines. -/

/-- Spec step: leading blank lines produce nothing. -/
def dropLeadingBlanks (ls : List Chars) : List Chars :=
  ls.dropWhile (fun l => l.isEmpty)

mutual

/-- Spec step: collapse each run of one or more blank lines into exactly
one blank line (after a stripped non-blank line has been seen). -/
def squeezeBlanks : List Chars → List Chars
  | [] => []
  | l :: ls =>
    if l.isEmpty then [] :: skipBlanks ls
    else l :: squeezeBlanks ls

/-- Helper of `squeezeBlanks`: the rest of a blank run is dropped. -/
def skipBlanks : List Chars → List Chars
  | [] => []
  | l :: ls =>
    if l.isEmpty then skipBlanks ls
    else l :: squeezeBlanks ls

end

/-- Spec step: remove all trailing blank lines. -/
def dropTrailingEmpties (ls : List Chars) : List Chars :=
  (ls.reverse.dropWhile (fun l => l.isEmpty)).reverse

/-- The sanitizer as the spec words it, assembled from the four steps.
`null`/`undefined`/empty input yields the empty string. -/
def specSanitize (content : Option String) : String :=
  match content with
  | none => ""
  | some s =>
    if s = "" then "" else
      String.mk (joinLines (dropTrailingEmpties (squeezeBlanks (dropLeadingBlanks
        ((splitLinesC (normCRLF s.toList)).map rstripLine)))))

/-! ## Equivalence of the loop with the spec pipeline -/

theorem dropWhile_head?_false {α : Type} {p : α → Bool} :
    ∀ {l : List α} {c : α}, (l.dropWhile p).head? = some c → p c = false := by
  intro l
  induction l with
  | nil => intro c h; simp [List.dropWhile] at h
  | cons a t ih =>
    intro c h
    by_cases hpa : p a = true
    · rw [List.dropWhile_cons_of_pos hpa] at h; exact ih h
    · rw [List.dropWhile_cons_of_neg hpa] at h
      simp only [List.head?_cons, Option.some.injEq] at h
      subst h; simpa using hpa

theorem all_dropWhile_iff {p : Char → Bool} (l : Chars) :
    (∀ c ∈ l.dropWhile p, p c = true) ↔ ∀ c ∈ l, p c = true := by
  constructor
  · intro h c hc
    rcases List.mem_append.mp ((List.takeWhile_append_dropWhile p l) ▸ hc) with h1 | h2
    · exact List.mem_takeWhile_imp h1
    · exact h c h2
  · intro h c hc
    exact h c (List.Sublist.mem hc (List.dropWhile_sublist _))

theorem isBlankLine_iff_all (l : Chars) :
    isBlankLine l = true ↔ ∀ c ∈ l, isJSWS c = true := by
  unfold isBlankLine jsTrim
  rw [decide_eq_true_iff, List.length_eq_zero, List.reverse_eq_nil_iff,
    List.dropWhile_eq_nil_iff]
  constructor
  · intro h c hc
    have := (all_dropWhile_iff (p := isJSWS) l).mp ?_ c hc
    · exact this
    · intro d hd
      exact h d (by simpa using (List.mem_reverse.mpr hd))
  · intro h c hc
    exact h c (List.Sublist.mem (List.mem_reverse.mp hc) (List.dropWhile_sublist _))

theorem rstripLine_eq_nil_iff (l : Chars) :
    rstripLine l = [] ↔ ∀ c ∈ l, isJSWS c = true := by
  unfold rstripLine
  rw [List.reverse_eq_nil_iff, List.dropWhile_eq_nil_iff]
  constructor
  · intro h c hc; exact h c (List.mem_reverse.mpr hc)
  · intro h c hc; exact h c (List.mem_reverse.mp hc)

theorem isBlank_rstrip (raw : Chars) :
    isBlankLine (rstripLine raw) = (rstripLine raw).isEmpty := by
  by_cases h : rstripLine raw = []
  · rw [h]; rfl
  · have hne : (rstripLine raw).isEmpty = false := by
      simpa [List.isEmpty_iff] using h
    rw [hne]
    by_contra hb
    have hb' : isBlankLine (rstripLine raw) = true := by
      cases hx : isBlankLine (rstripLine raw)
      · exact absurd hx hb
      · rfl
    have hall : ∀ c ∈ rstripLine raw, isJSWS c = true :=
      (isBlankLine_iff_all _).mp ((isBlankLine_iff_all _).mpr ?_)
    · obtain ⟨c, t, hct⟩ := List.exists_cons_of_ne_nil
        (fun hrev => h (by simpa using congrArg List.reverse hrev) :
          (rstripLine raw).reverse ≠ [])
      have hc : ((raw.reverse.dropWhile isJSWS)).head? = some c := by
        have : (rstripLine raw).reverse = raw.reverse.dropWhile isJSWS := by
          unfold rstripLine; simp
        rw [← this, hct]; rfl
      have hcf : isJSWS c = false := dropWhile_head?_false hc
      have hcm : c ∈ rstripLine raw := by
        have : c ∈ (rstripLine raw).reverse := by rw [hct]; exact List.mem_cons_self c t
        simpa using this
      rw [hall c hcm] at hcf; cases hcf
    · exact fun c hc => (isBlankLine_iff_all _).mp hb' c hc

/-- Property carried through the loop: after per-line stripping, a line is
blank exactly when it is empty. -/
def BlankIsEmpty (ls : List Chars) : Prop :=
  ∀ l ∈ ls, isBlankLine l = l.isEmpty

theorem collapseLoop_cons (raw : Chars) (rest result : List Chars) (previousBlank : Bool) :
    collapseLoop (raw :: rest) result previousBlank =
      if isBlankLine (rstripLine raw) = true then
        (if previousBlank = false ∧ result.length > 0
          then collapseLoop rest (result ++ [[]]) true
          else collapseLoop rest result previousBlank)
      else collapseLoop rest (result ++ [rstripLine raw]) false := rfl

theorem squeezeBlanks_cons (l : Chars) (ls : List Chars) :
    squeezeBlanks (l :: ls) =
      if l.isEmpty = true then [] :: skipBlanks ls else l :: squeezeBlanks ls := rfl

theorem skipBlanks_cons (l : Chars) (ls : List Chars) :
    skipBlanks (l :: ls) =
      if l.isEmpty = true then skipBlanks ls else l :: squeezeBlanks ls := rfl

theorem collapseLoop_seen (lines : List Chars) :
    (∀ acc : List Chars, acc ≠ [] →
        collapseLoop lines acc false = acc ++ squeezeBlanks (lines.map rstripLine)) ∧
    (∀ acc : List Chars, acc ≠ [] →
        collapseLoop lines acc true = acc ++ skipBlanks (lines.map rstripLine)) := by
  induction lines with
  | nil => constructor <;> (intro acc _; simp [collapseLoop, squeezeBlanks, skipBlanks])
  | cons raw rest ih =>
    have hblank := isBlank_rstrip raw
    constructor
    · intro acc hacc
      rw [collapseLoop_cons, List.map_cons, squeezeBlanks_cons]
      by_cases hb : isBlankLine (rstripLine raw) = true
      · have hemp : (rstripLine raw).isEmpty = true := hblank ▸ hb
        have hlen : acc.length > 0 := List.length_pos.mpr hacc
        rw [if_pos hb, if_pos (And.intro rfl hlen), if_pos hemp,
          ih.2 (acc ++ [[]]) (by simp), List.append_assoc]
        rfl
      · have hemp : (rstripLine raw).isEmpty = false := by
          rw [← hblank]; exact Bool.not_eq_true _ ▸ (Bool.of_not_eq_true hb)
        rw [if_neg hb, if_neg (by rw [hemp]; exact Bool.false_ne_true),
          ih.1 (acc ++ [rstripLine raw]) (by simp), List.append_assoc]
        rfl
    · intro acc hacc
      rw [collapseLoop_cons, List.map_cons, skipBlanks_cons]
      by_cases hb : isBlankLine (rstripLine raw) = true
      · have hemp : (rstripLine raw).isEmpty = true := hblank ▸ hb
        rw [if_pos hb, if_neg (by simp), if_pos hemp, ih.2 acc hacc]
      · have hemp : (rstripLine raw).isEmpty = false := by
          rw [← hblank]; exact Bool.not_eq_true _ ▸ (Bool.of_not_eq_true hb)
        rw [if_neg hb, if_neg (by rw [hemp]; exact Bool.false_ne_true),
          ih.1 (acc ++ [rstripLine raw]) (by simp), List.append_assoc]
        rfl

theorem collapseLoop_start (lines : List Chars) :
    collapseLoop lines [] false =
      squeezeBlanks (dropLeadingBlanks (lines.map rstripLine)) := by
  induction lines with
  | nil => simp [collapseLoop, dropLeadingBlanks, squeezeBlanks]
  | cons raw rest ih =>
    have hblank := isBlank_rstrip raw
    rw [collapseLoop_cons, List.map_cons]
    by_cases hb : isBlankLine (rstripLine raw) = true
    · have hemp : (rstripLine raw).isEmpty = true := hblank ▸ hb
      rw [if_pos hb, if_neg (by simp), ih]
      have : dropLeadingBlanks (rstripLine raw :: rest.map rstripLine) =
          dropLeadingBlanks (rest.map rstripLine) := by
        unfold dropLeadingBlanks
        rw [List.dropWhile_cons_of_pos hemp]
      rw [this]
    · have hemp : (rstripLine raw).isEmpty = false := by
        rw [← hblank]; exact Bool.not_eq_true _ ▸ (Bool.of_not_eq_true hb)
      rw [if_neg hb, List.nil_append,
        (collapseLoop_seen rest).1 [rstripLine raw] (by simp)]
      have : dropLeadingBlanks (rstripLine raw :: rest.map rstripLine) =
          rstripLine raw :: rest.map rstripLine := by
        unfold dropLeadingBlanks
        rw [List.dropWhile_cons_of_neg (by rw [hemp]; exact Bool.false_ne_true)]
      rw [this, squeezeBlanks_cons, if_neg (by rw [hemp]; exact Bool.false_ne_true)]
      rfl

theorem mem_squeezeBlanks (ls : List Chars) :
    (∀ l ∈ squeezeBlanks ls, l = [] ∨ l ∈ ls) ∧
    (∀ l ∈ skipBlanks ls, l = [] ∨ l ∈ ls) := by
  induction ls with
  | nil => constructor <;> (intro l hl; simp [squeezeBlanks, skipBlanks] at hl)
  | cons a t ih =>
    constructor
    · intro l hl
      rw [squeezeBlanks_cons] at hl
      by_cases ha : a.isEmpty = true
      · rw [if_pos ha] at hl
        rcases List.mem_cons.mp hl with h | h
        · exact Or.inl h
        · rcases ih.2 l h with h2 | h2
          · exact Or.inl h2
          · exact Or.inr (List.mem_cons_of_mem a h2)
      · rw [if_neg ha] at hl
        rcases List.mem_cons.mp hl with h | h
        · exact Or.inr (h ▸ List.mem_cons_self a t)
        · rcases ih.1 l h with h2 | h2
          · exact Or.inl h2
          · exact Or.inr (List.mem_cons_of_mem a h2)
    · intro l hl
      rw [skipBlanks_cons] at hl
      by_cases ha : a.isEmpty = true
      · rw [if_pos ha] at hl
        rcases ih.2 l hl with h2 | h2
        · exact Or.inl h2
        · exact Or.inr (List.mem_cons_of_mem a h2)
      · rw [if_neg ha] at hl
        rcases List.mem_cons.mp hl with h | h
        · exact Or.inr (h ▸ List.mem_cons_self a t)
        · rcases ih.1 l h with h2 | h2
          · exact Or.inl h2
          · exact Or.inr (List.mem_cons_of_mem a h2)

theorem dropWhile_congr_mem {p q : Chars → Bool} :
    ∀ {ls : List Chars}, (∀ l ∈ ls, p l = q l) → ls.dropWhile p = ls.dropWhile q := by
  intro ls
  induction ls with
  | nil => intro _; rfl
  | cons a t ih =>
    intro h
    have ha := h a (List.mem_cons_self a t)
    by_cases hp : p a = true
    · rw [List.dropWhile_cons_of_pos hp, List.dropWhile_cons_of_pos (ha ▸ hp),
        ih (fun l hl => h l (List.mem_cons_of_mem a hl))]
    · have hp' : p a = false := Bool.of_not_eq_true hp
      rw [List.dropWhile_cons_of_neg hp,
        List.dropWhile_cons_of_neg (by rw [← ha]; exact hp)]

theorem popTrailing_eq_dropTrailing {ls : List Chars} (h : BlankIsEmpty ls) :
    popTrailingBlanks ls = dropTrailingEmpties ls := by
  unfold popTrailingBlanks dropTrailingEmpties
  rw [dropWhile_congr_mem (fun l hl => h l (List.mem_reverse.mp hl))]

theorem blankIsEmpty_squeeze {ls : List Chars} (h : BlankIsEmpty ls) :
    BlankIsEmpty (squeezeBlanks ls) := by
  intro l hl
  rcases (mem_squeezeBlanks ls).1 l hl with h2 | h2
  · subst h2; rfl
  · exact h l h2

theorem blankIsEmpty_dropLeading {ls : List Chars} (h : BlankIsEmpty ls) :
    BlankIsEmpty (dropLeadingBlanks ls) := by
  intro l hl
  exact h l (List.Sublist.mem hl (List.dropWhile_sublist _))

theorem blankIsEmpty_map_rstrip (lines : List Chars) :
    BlankIsEmpty (lines.map rstripLine) := by
  intro l hl
  rcases List.mem_map.mp hl with ⟨raw, _, hr⟩
  exact hr ▸ isBlank_rstrip raw

/-- The loop body plus the trailing-pop equals the spec pipeline on lines. -/
theorem loop_eq_pipeline (lines : List Chars) :
    popTrailingBlanks (collapseLoop lines [] false) =
      dropTrailingEmpties (squeezeBlanks (dropLeadingBlanks (lines.map rstripLine))) := by
  rw [collapseLoop_start]
  exact popTrailing_eq_dropTrailing
    (blankIsEmpty_squeeze (blankIsEmpty_dropLeading (blankIsEmpty_map_rstrip lines)))

/-! ## Canonical form of the sanitizer output (towards idempotence) -/

theorem dropWhile_idem {α : Type} (p : α → Bool) (l : List α) :
    (l.dropWhile p).dropWhile p = l.dropWhile p := by
  cases h : l.dropWhile p with
  | nil => rfl
  | cons a t =>
    have ha : p a = false := dropWhile_head?_false (by rw [h]; rfl)
    rw [List.dropWhile_cons_of_neg (by rw [ha]; exact Bool.false_ne_true)]

theorem rstrip_idem (l : Chars) : rstripLine (rstripLine l) = rstripLine l := by
  unfold rstripLine
  rw [List.reverse_reverse, dropWhile_idem]

theorem mem_rstrip {l : Chars} {c : Char} (h : c ∈ rstripLine l) : c ∈ l := by
  unfold rstripLine at h
  exact List.mem_reverse.mp
    (List.Sublist.mem (List.mem_reverse.mp h) (List.dropWhile_sublist _))

theorem no_newline_in_splitLines :
    ∀ (cs : Chars) (l : Chars), l ∈ splitLinesC cs → '\n' ∉ l := by
  intro cs
  induction cs with
  | nil =>
    intro l hl
    simp only [splitLinesC, List.mem_singleton] at hl
    subst hl; simp
  | cons c rest ih =>
    intro l hl
    by_cases hc : c = '\n'
    · rw [splitLinesC, if_pos hc] at hl
      rcases List.mem_cons.mp hl with h | h
      · subst h; simp
      · exact ih l h
    · rw [splitLinesC, if_neg hc] at hl
      rcases hsplit : splitLinesC rest with l0 | ⟨l1, ls⟩
      · rw [hsplit] at hl
        simp only [List.mem_singleton] at hl
        subst hl
        intro hmem
        rcases List.mem_cons.mp hmem with h | h
        · exact hc h.symm
        · simp at h
      · rw [hsplit] at hl
        rcases List.mem_cons.mp hl with h | h
        · subst h
          intro hmem
          rcases List.mem_cons.mp hmem with h | h
          · exact hc h.symm
          · exact ih l1 (by rw [hsplit]; exact List.mem_cons_self l1 ls) h
        · exact ih l (by rw [hsplit]; exact List.mem_cons_of_mem l1 h)

theorem splitLinesC_single {l : Chars} (h : '\n' ∉ l) : splitLinesC l = [l] := by
  induction l with
  | nil => rfl
  | cons c t ih =>
    have hc : ¬ c = '\n' := fun hcc => h (hcc ▸ List.mem_cons_self c t)
    rw [splitLinesC, if_neg hc, ih (fun hm => h (List.mem_cons_of_mem c hm))]

theorem splitLinesC_append {l : Chars} (rest : Chars) (h : '\n' ∉ l) :
    splitLinesC (l ++ '\n' :: rest) = l :: splitLinesC rest := by
  induction l with
  | nil => rw [List.nil_append, splitLinesC, if_pos rfl]
  | cons c t ih =>
    have hc : ¬ c = '\n' := fun hcc => h (hcc ▸ List.mem_cons_self c t)
    rw [List.cons_append, splitLinesC, if_neg hc,
      ih (fun hm => h (List.mem_cons_of_mem c hm))]

theorem splitLines_joinLines :
    ∀ (l : Chars) (ls : List Chars), (∀ x ∈ l :: ls, '\n' ∉ x) →
      splitLinesC (joinLines (l :: ls)) = l :: ls := by
  intro l ls
  induction ls generalizing l with
  | nil => intro h; exact splitLinesC_single (h l (List.mem_cons_self l []))
  | cons l2 ls2 ih =>
    intro h
    show splitLinesC (l ++ '\n' :: joinLines (l2 :: ls2)) = _
    rw [splitLinesC_append _ (h l (List.mem_cons_self _ _)),
      ih l2 (fun x hx => h x (List.mem_cons_of_mem l hx))]

theorem normCRLF_cons_ne {c : Char} {rest : Chars}
    (h : ¬(c = '\r' ∧ rest.head? = some '\n')) :
    normCRLF (c :: rest) = c :: normCRLF rest := by
  rw [normCRLF.eq_def]
  split
  · rename_i heq; cases heq
  · rename_i rest2 heq
    injection heq with h1 h2
    subst h1
    rw [h2] at h ⊢
    exact absurd ⟨rfl, rfl⟩ h
  · rename_i c2 rest2 hno heq
    injection heq with h1 h2
    subst h1; subst h2
    rfl

theorem normCRLF_append {l : Chars} :
    ∀ (rest : Chars), '\n' ∉ l →
      (l.getLast? = some '\r' → rest.head? ≠ some '\n') →
      normCRLF (l ++ rest) = l ++ normCRLF rest := by
  induction l with
  | nil => intro rest _ _; rfl
  | cons c t ih =>
    intro rest h1 h2
    rw [List.cons_append, normCRLF_cons_ne, List.cons_append,
      ih rest (fun hm => h1 (List.mem_cons_of_mem c hm)) ?tail]
    case tail =>
      intro hlast
      cases t with
      | nil => simp at hlast
      | cons d t2 =>
        have : (c :: d :: t2).getLast? = some '\r' := by
          rw [List.getLast?_cons_cons]; exact hlast
        exact h2 this
    rintro ⟨hc, hh⟩
    cases t with
    | nil =>
      exact h2 (by rw [hc]; rfl) hh
    | cons d t2 =>
      simp only [List.cons_append, List.head?_cons, Option.some.injEq] at hh
      apply h1
      rw [hh]
      exact List.mem_cons_of_mem c (List.mem_cons_self _ _)

theorem normCRLF_joinLines :
    ∀ (ls : List Chars),
      (∀ l ∈ ls, '\n' ∉ l ∧ l.getLast? ≠ some '\r') →
      normCRLF (joinLines ls) = joinLines ls := by
  intro ls
  induction ls with
  | nil => intro _; rfl
  | cons l ls2 ih =>
    intro h
    cases ls2 with
    | nil =>
      have hstep : normCRLF (l ++ []) = l ++ normCRLF [] :=
        normCRLF_append [] (h l (List.mem_cons_self _ _)).1 (fun _ => by simp)
      show normCRLF l = l
      rw [List.append_nil] at hstep
      rw [hstep]
      show l ++ [] = l
      rw [List.append_nil]
    | cons l2 ls3 =>
      show normCRLF (l ++ '\n' :: joinLines (l2 :: ls3)) = _
      rw [normCRLF_append _ (h l (List.mem_cons_self _ _)).1
        (fun hlast _ => (h l (List.mem_cons_self _ _)).2 hlast)]
      rw [normCRLF_cons_ne (by rintro ⟨hc, _⟩; exact absurd hc (by decide))]
      rw [ih (fun x hx => h x (List.mem_cons_of_mem l hx))]
      rfl

/-- No two consecutive blank (empty) lines. -/
def NoTwoEmpty : List Chars → Prop
  | [] => True
  | [_] => True
  | l :: l2 :: ls => ¬(l.isEmpty = true ∧ l2.isEmpty = true) ∧ NoTwoEmpty (l2 :: ls)

theorem noTwoEmpty_tail : ∀ {a : Chars} {t : List Chars}, NoTwoEmpty (a :: t) → NoTwoEmpty t := by
  intro a t h
  cases t with
  | nil => trivial
  | cons b t2 => exact h.2

theorem squeeze_fixed :
    ∀ (ls : List Chars), NoTwoEmpty ls →
      squeezeBlanks ls = ls ∧
      ((∀ x, ls.head? = some x → x.isEmpty = false) → skipBlanks ls = ls) := by
  intro ls
  induction ls with
  | nil => intro _; exact ⟨rfl, fun _ => rfl⟩
  | cons a t ih =>
    intro h
    have ht := noTwoEmpty_tail h
    constructor
    · by_cases ha : a.isEmpty = true
      · have hanil : a = [] := List.isEmpty_iff.mp ha
        rw [squeezeBlanks_cons, if_pos ha, hanil]
        have hskip : skipBlanks t = t := by
          refine (ih ht).2 ?_
          intro x hx
          cases t with
          | nil => cases hx
          | cons b t2 =>
            have hbx : b = x := by simpa using hx
            subst hbx
            by_cases hb : b.isEmpty = true
            · exact absurd ⟨ha, hb⟩ h.1
            · cases hx2 : b.isEmpty
              · rfl
              · exact absurd hx2 hb
        rw [hskip]
      · have ha' : a.isEmpty = false := by
          cases hx : a.isEmpty
          · rfl
          · exact absurd hx ha
        rw [squeezeBlanks_cons, if_neg ha, (ih ht).1]
    · intro hhead
      have ha := hhead a rfl
      rw [skipBlanks_cons, if_neg (by rw [ha]; exact Bool.false_ne_true), (ih ht).1]

theorem dropWhile_append_decomp {α : Type} (p : α → Bool) (l1 l2 : List α) :
    (l1 ++ l2).dropWhile p =
      if (l1.dropWhile p).isEmpty then l2.dropWhile p else l1.dropWhile p ++ l2 := by
  induction l1 with
  | nil => simp
  | cons a t ih =>
    by_cases ha : p a = true
    · rw [List.cons_append, List.dropWhile_cons_of_pos ha, ih,
        List.dropWhile_cons_of_pos ha]
    · have ha' : p a = false := by
        cases hx : p a
        · rfl
        · exact absurd hx ha
      rw [List.cons_append, List.dropWhile_cons_of_neg ha,
        List.dropWhile_cons_of_neg ha]
      simp

theorem dropTrailing_cons (a : Chars) (t : List Chars) :
    dropTrailingEmpties (a :: t) =
      if dropTrailingEmpties t = [] then (if a.isEmpty = true then [] else [a])
      else a :: dropTrailingEmpties t := by
  unfold dropTrailingEmpties
  rw [List.reverse_cons, dropWhile_append_decomp]
  by_cases hd : (t.reverse.dropWhile fun l => l.isEmpty) = []
  · rw [if_pos (by rw [hd]; rfl), if_pos (by rw [hd]; rfl)]
    by_cases ha : a.isEmpty = true
    · rw [if_pos ha]
      show (List.dropWhile _ [a]).reverse = []
      rw [List.dropWhile_cons_of_pos ha]
      rfl
    · have ha' : a.isEmpty = false := by
        cases hx : a.isEmpty
        · rfl
        · exact absurd hx ha
      rw [if_neg ha]
      show (List.dropWhile _ [a]).reverse = [a]
      rw [List.dropWhile_cons_of_neg (by rw [ha']; exact Bool.false_ne_true)]
      rfl
  · rw [if_neg (by simpa [List.isEmpty_iff] using hd),
      if_neg (by simpa [List.reverse_eq_nil_iff] using hd)]
    rw [List.reverse_append]
    rfl

theorem dropTrailing_head (a : Chars) (t : List Chars) :
    dropTrailingEmpties (a :: t) = [] ∨ (dropTrailingEmpties (a :: t)).head? = some a := by
  rw [dropTrailing_cons]
  by_cases h : dropTrailingEmpties t = []
  · rw [if_pos h]
    by_cases ha : a.isEmpty = true
    · rw [if_pos ha]; exact Or.inl rfl
    · rw [if_neg ha]; exact Or.inr rfl
  · rw [if_neg h]; exact Or.inr rfl

theorem dropTrailing_noTwo :
    ∀ (ls : List Chars), NoTwoEmpty ls → NoTwoEmpty (dropTrailingEmpties ls) := by
  intro ls
  induction ls with
  | nil => intro _; trivial
  | cons a t ih =>
    intro h
    rw [dropTrailing_cons]
    by_cases hd : dropTrailingEmpties t = []
    · rw [if_pos hd]
      by_cases ha : a.isEmpty = true
      · rw [if_pos ha]; trivial
      · rw [if_neg ha]; trivial
    · rw [if_neg hd]
      have hnt := ih (noTwoEmpty_tail h)
      cases hdt : dropTrailingEmpties t with
      | nil => exact absurd hdt hd
      | cons b t2 =>
        refine ⟨?_, hdt ▸ hnt⟩
        cases t with
        | nil => simp [dropTrailingEmpties] at hdt
        | cons c t3 =>
          rcases dropTrailing_head c t3 with h1 | h1
          · exact absurd h1 hd
          · rw [hdt] at h1
            cases h1
            rintro ⟨ha, hb⟩
            exact h.1 ⟨ha, hb⟩

theorem dropTrailing_last {ls : List Chars} {x : Chars}
    (h : (dropTrailingEmpties ls).getLast? = some x) : x.isEmpty = false := by
  unfold dropTrailingEmpties at h
  rw [List.getLast?_reverse] at h
  exact dropWhile_head?_false h

theorem dropTrailing_fixed {ls : List Chars}
    (h : ∀ x, ls.getLast? = some x → x.isEmpty = false) :
    dropTrailingEmpties ls = ls := by
  unfold dropTrailingEmpties
  cases hrev : ls.reverse with
  | nil =>
    rw [List.dropWhile_nil]
    rw [List.reverse_eq_nil_iff] at hrev
    rw [hrev]; rfl
  | cons a t =>
    have ha : a.isEmpty = false := by
      apply h
      have h1 : ls.reverse.head? = some a := by rw [hrev]; rfl
      have h2 : ls.getLast? = ls.reverse.head? := by
        conv_lhs => rw [← List.reverse_reverse ls]
        rw [List.getLast?_reverse]
      rw [h2, h1]
    rw [List.dropWhile_cons_of_neg (by rw [ha]; exact Bool.false_ne_true), ← hrev,
      List.reverse_reverse]

theorem mem_dropTrailing {ls : List Chars} {l : Chars}
    (h : l ∈ dropTrailingEmpties ls) : l ∈ ls := by
  unfold dropTrailingEmpties at h
  exact List.mem_reverse.mp
    (List.Sublist.mem (List.mem_reverse.mp h) (List.dropWhile_sublist _))

theorem map_self {f : Chars → Chars} :
    ∀ {ls : List Chars}, (∀ l ∈ ls, f l = l) → ls.map f = ls := by
  intro ls
  induction ls with
  | nil => intro _; rfl
  | cons a t ih =>
    intro h
    rw [List.map_cons, h a (List.mem_cons_self a t),
      ih (fun l hl => h l (List.mem_cons_of_mem a hl))]

theorem getLast?_eq_reverse_head? (l : Chars) : l.getLast? = l.reverse.head? := by
  conv_lhs => rw [← List.reverse_reverse l]
  rw [List.getLast?_reverse]

theorem rstrip_fixed_last {l : Chars} {c : Char}
    (hfix : rstripLine l = l) (h : l.getLast? = some c) : isJSWS c = false := by
  have hrev : l.reverse.dropWhile isJSWS = l.reverse := by
    have := congrArg List.reverse hfix
    unfold rstripLine at this
    rw [List.reverse_reverse] at this
    exact this
  rw [getLast?_eq_reverse_head?, ← hrev] at h
  exact dropWhile_head?_false h

theorem squeeze_noTwo :
    ∀ (ls : List Chars),
      NoTwoEmpty (squeezeBlanks ls) ∧ NoTwoEmpty (skipBlanks ls) ∧
        (∀ x, (skipBlanks ls).head? = some x → x.isEmpty = false) := by
  intro ls
  induction ls with
  | nil => exact ⟨trivial, trivial, fun x hx => by cases hx⟩
  | cons a t ih =>
    obtain ⟨ih1, ih2, ih3⟩ := ih
    by_cases ha : a.isEmpty = true
    · refine ⟨?_, ?_, ?_⟩
      · rw [squeezeBlanks_cons, if_pos ha]
        cases hskip : skipBlanks t with
        | nil => trivial
        | cons b t2 =>
          refine ⟨?_, hskip ▸ ih2⟩
          rintro ⟨_, hb⟩
          have := ih3 b (by rw [hskip]; rfl)
          rw [this] at hb; cases hb
      · rw [skipBlanks_cons, if_pos ha]; exact ih2
      · rw [skipBlanks_cons, if_pos ha]; exact ih3
    · have ha' : a.isEmpty = false := by
        cases hx : a.isEmpty
        · rfl
        · exact absurd hx ha
      have hsq : NoTwoEmpty (a :: squeezeBlanks t) := by
        cases hsqt : squeezeBlanks t with
        | nil => trivial
        | cons b t2 =>
          refine ⟨?_, hsqt ▸ ih1⟩
          rintro ⟨hae, _⟩
          rw [ha'] at hae; cases hae
      refine ⟨?_, ?_, ?_⟩
      · rw [squeezeBlanks_cons, if_neg ha]; exact hsq
      · rw [skipBlanks_cons, if_neg ha]; exact hsq
      · rw [skipBlanks_cons, if_neg ha]
        intro x hx
        have hax : a = x := by simpa using hx
        exact hax ▸ ha'

theorem sanitizeCore_idem (cs : Chars) :
    sanitizeCore (sanitizeCore cs) = sanitizeCore cs := by
  have hpipe : sanitizeCore cs =
      joinLines (dropTrailingEmpties (squeezeBlanks (dropLeadingBlanks
        ((splitLinesC (normCRLF cs)).map rstripLine)))) := by
    unfold sanitizeCore
    rw [loop_eq_pipeline]
  set X := (splitLinesC (normCRLF cs)).map rstripLine with hX
  set S := squeezeBlanks (dropLeadingBlanks X) with hS
  set L := dropTrailingEmpties S with hL2
  have hXgood : ∀ l ∈ X, '\n' ∉ l ∧ rstripLine l = l := by
    intro l hl
    rcases List.mem_map.mp hl with ⟨raw, hraw, hr⟩
    refine ⟨?_, by rw [← hr]; exact rstrip_idem raw⟩
    intro hmem
    exact no_newline_in_splitLines (normCRLF cs) raw hraw (mem_rstrip (hr ▸ hmem))
  have hLmem : ∀ l ∈ L, l = [] ∨ l ∈ X := by
    intro l hl
    have h1 : l ∈ S := mem_dropTrailing hl
    rcases (mem_squeezeBlanks _).1 l h1 with h2 | h2
    · exact Or.inl h2
    · exact Or.inr (List.Sublist.mem h2 (List.dropWhile_sublist _))
  have hLgood : ∀ l ∈ L, '\n' ∉ l ∧ rstripLine l = l := by
    intro l hl
    rcases hLmem l hl with h | h
    · subst h; exact ⟨by simp, rfl⟩
    · exact hXgood l h
  have hLlast : ∀ l ∈ L, l.getLast? ≠ some '\r' := by
    intro l hl hcon
    have := rstrip_fixed_last (hLgood l hl).2 hcon
    rw [show isJSWS '\r' = true from by decide] at this
    cases this
  have hBL : BlankIsEmpty L := by
    intro l hl
    rcases hLmem l hl with h | h
    · subst h; rfl
    · exact blankIsEmpty_map_rstrip (splitLinesC (normCRLF cs)) l h
  have hNoTwo : NoTwoEmpty L := dropTrailing_noTwo S (squeeze_noTwo (dropLeadingBlanks X)).1
  have hHeadL : ∀ x, L.head? = some x → x.isEmpty = false := by
    intro x hx
    cases hdl : dropLeadingBlanks X with
    | nil =>
      rw [hL2, hS, hdl] at hx
      cases hx
    | cons d D =>
      have hd : d.isEmpty = false := by
        have : (X.dropWhile (fun l => l.isEmpty)).head? = some d := by
          rw [show X.dropWhile (fun l => l.isEmpty) = dropLeadingBlanks X from rfl, hdl]
          rfl
        exact dropWhile_head?_false this
      have hsq : S = d :: skipBlanks D ∨ S = d :: squeezeBlanks D := by
        rw [hS, hdl, squeezeBlanks_cons, if_neg (by rw [hd]; exact Bool.false_ne_true)]
        exact Or.inr rfl
      rcases hsq with hsq | hsq <;>
      · rw [hL2, hsq] at hx
        rcases dropTrailing_head d _ with hcase | hcase
        · rw [hcase] at hx; cases hx
        · rw [hcase] at hx
          have : d = x := by simpa using hx
          exact this ▸ hd
  have hLastL : ∀ x, L.getLast? = some x → x.isEmpty = false := by
    intro x hx
    exact dropTrailing_last (hL2 ▸ hx)
  rw [hpipe]
  rcases hcase : L with _ | ⟨l0, ls0⟩
  · show sanitizeCore (joinLines []) = joinLines []
    decide
  · show sanitizeCore (joinLines (l0 :: ls0)) = joinLines (l0 :: ls0)
    have hnn : ∀ x ∈ l0 :: ls0, '\n' ∉ x := by
      intro x hxm
      exact (hLgood x (hcase ▸ hxm)).1
    unfold sanitizeCore
    rw [normCRLF_joinLines (l0 :: ls0)
        (fun l hl => ⟨(hLgood l (hcase ▸ hl)).1, hLlast l (hcase ▸ hl)⟩),
      splitLines_joinLines l0 ls0 hnn, collapseLoop_start,
      map_self (fun l hl => (hLgood l (hcase ▸ hl)).2)]
    have hl0 : l0.isEmpty = false := hHeadL l0 (by rw [hcase]; rfl)
    have hdl : dropLeadingBlanks (l0 :: ls0) = l0 :: ls0 := by
      unfold dropLeadingBlanks
      rw [List.dropWhile_cons_of_neg (by rw [hl0]; exact Bool.false_ne_true)]
    rw [hdl, (squeeze_fixed (l0 :: ls0) (hcase ▸ hNoTwo)).1,
      popTrailing_eq_dropTrailing (fun l hl => hBL l (hcase ▸ hl)),
      dropTrailing_fixed (fun x hx => hLastL x (hcase ▸ hx))]

/-- C7: for every input (including `null`/`undefined`/empty, which yield
the empty string), `sanitizeElementContent` equals the spec pipeline —
normalize CRLF, strip trailing whitespace per line, collapse blank-line
runs to one blank line only after non-blank content, drop leading and
trailing blank lines — and in particular maps
`"Line 1\n\n\n\nLine 2"` to `"Line 1\n\nLine 2"` and
`"\n\nLine 1\nLine 2\n\n"` to `"Line 1\nLine 2"`. -/
theorem sanitize_matches_spec :
    (∀ o : Option String, sanitizeElementContent o = specSanitize o) ∧
    sanitizeElementContent (some ("Line 1\n\n\n\nLine 2")) = ("Line 1\n\nLine 2") ∧
    sanitizeElementContent (some ("\n\nLine 1\nLine 2\n\n")) = ("Line 1\nLine 2") ∧
    sanitizeElementContent none = "" ∧
    sanitizeElementContent (some ("")) = "" := by
  refine ⟨?_, by decide, by decide, rfl, rfl⟩
  intro o
  match o with
  | none => rfl
  | some s =>
    show (if s = "" then "" else String.mk (sanitizeCore s.toList)) = _
    by_cases h : s = ""
    · rw [if_pos h]; exact (if_pos h).symm
    · rw [if_neg h]
      refine Eq.trans ?_ (if_neg h).symm
      unfold sanitizeCore
      rw [loop_eq_pipeline]

/-- C8: the sanitizer is idempotent — for every string `x`,
`sanitize(sanitize(x)) === sanitize(x)`. -/
theorem sanitize_idempotent :
    ∀ s : String,
      sanitizeElementContent (some (sanitizeElementContent (some s))) =
        sanitizeElementContent (some s) := by
  intro s
  by_cases h : s = ""
  · subst h; rfl
  · have hs : sanitizeElementContent (some s) = String.mk (sanitizeCore s.toList) := by
      show (if s = "" then "" else String.mk (sanitizeCore s.toList)) = _
      rw [if_neg h]
    rw [hs]
    by_cases hr : sanitizeCore s.toList = []
    · rw [hr]; rfl
    · have hmk : String.mk (sanitizeCore s.toList) ≠ "" := by
        intro hcon
        exact hr (congrArg String.data hcon)
      show (if String.mk (sanitizeCore s.toList) = "" then ""
        else String.mk (sanitizeCore (String.mk (sanitizeCore s.toList)).toList)) = _
      rw [if_neg hmk]
      show String.mk (sanitizeCore (sanitizeCore s.toList)) = _
      rw [sanitizeCore_idem]

/-! ## Data model (src/types/index.ts). `createdAt` ISO strings, always
compared through `Date.getTime`, are modelled as `Nat` millisecond
timestamps; `Date.now()` becomes an explicit `now : Nat` argument. -/

/-- Values stored in JS `Record<string, any>` control-value maps. -/
inductive JSVal where
  | s (v : String)
  | n (v : Int)
  | b (v : Bool)
deriving DecidableEq, Repr

structure StructuralElement where
  id : String
  name : String
  enabled : Bool
  content : String
  autoRemoveEmptyLines : Option Bool
  linkedVariable : Option String
deriving DecidableEq, Repr

/-- `Version`; the TS field `structure` is spelled `structure_`. -/
structure Version where
  id : String
  promptId : String
  createdAt : Nat
  structure_ : List StructuralElement
  isAutoSave : Option Bool
deriving DecidableEq, Repr

structure Prompt where
  id : String
  name : String
  versions : List String
  currentVersion : String
  tags : List String
  createdAt : Nat
deriving DecidableEq, Repr

structure Project where
  id : String
  name : String
  prompts : List String
  tags : List String
  createdAt : Nat
deriving DecidableEq, Repr

inductive PreviewMode where
  | clean
  | raw
deriving DecidableEq, Repr

/-- JS `v.isAutoSave === true` on the optional flag. -/
def tsIsAuto (o : Option Bool) : Bool :=
  match o with
  | some true => true
  | _ => false

/-- Stable insertion of a version into a createdAt-descending list: equal
keys keep their original relative order, matching the stable JS
`sort((a, b) => getTime(b) - getTime(a))`. -/
def insertDesc (v : Version) : List Version → List Version
  | [] => [v]
  | x :: xs => if x.createdAt ≤ v.createdAt then v :: x :: xs else x :: insertDesc v xs

/-- `versions.sort((a, b) => new Date(b.createdAt) - new Date(a.createdAt))`. -/
def sortByCreatedAtDesc (vs : List Version) : List Version :=
  vs.foldr insertDesc []

/-! ## Element output resolver (src/utils/elementOutput.ts, lines 6–34) -/

/-- The `contentToProcess` selection (lines 16–23): if
`element.linkedVariable` is truthy (non-empty), and the store's
`getVariable` — passed in as `vars`, since the variable store is not part
of the sources — yields a value, use it; otherwise fall back to
`element.content`. -/
def contentToProcessOf (vars : String → Option String)
    (element : StructuralElement) : String :=
  match element.linkedVariable with
  | none => element.content
  | some nm =>
    if nm = "" then element.content
    else
      match vars nm with
      | some v => v
      | none => element.content

/-- `getProcessedElementContent(element, previewMode, globalControlValues)`.
`render` stands for `renderPrompt(c, parseControlSyntax(c), values)` — the
parser/renderer source is not in the snapshot, so it is an arbitrary
function parameter; `vars` is the store's `getVariable`. -/
def getProcessedElementContent (render : String → List (String × JSVal) → String)
    (vars : String → Option String) (element : StructuralElement)
    (previewMode : PreviewMode)
    (globalControlValues : List (String × JSVal)) : String :=
  if element.enabled = false then ""
  else
    let contentToProcess := contentToProcessOf vars element
    let baseContent :=
      match previewMode with
      | .raw => contentToProcess
      | .clean => render contentToProcess globalControlValues
    let shouldSanitize :=
      (element.autoRemoveEmptyLines.getD true) = true ∧ previewMode = .clean
    let processed :=
      if shouldSanitize then sanitizeElementContent (some baseContent) else baseContent
    if (jsTrim processed.toList).length = 0 then "" else processed

/-- Modelled from the spec: §4.4 step 2 with §6's
`isElementTemporarilyUnlinked` collaborator (absent from the sources):
the variable's value is used only when the element is not temporarily
unlinked AND the variable exists; otherwise `element.content`. -/
def specContentChoice (unlinked : String → Bool) (vars : String → Option String)
    (element : StructuralElement) : String :=
  match element.linkedVariable with
  | none => element.content
  | some nm =>
    if nm = "" then element.content
    else if unlinked element.id = false ∧ (vars nm).isSome then
      (vars nm).getD element.content
    else element.content

/-- Modelled from the spec, as amended: the temporarily-unlinked override
is dropped — the variable's value is used exactly when the link is set
(non-empty) and the variable exists. -/
def specContentChoiceAmended (vars : String → Option String)
    (element : StructuralElement) : String :=
  match element.linkedVariable with
  | none => element.content
  | some nm =>
    if nm = "" then element.content
    else if (vars nm).isSome then (vars nm).getD element.content
    else element.content

def c3elem : StructuralElement :=
  ⟨"e1", "E", true, "orig", some true, some "#v"⟩

def c3vars : String → Option String :=
  fun nm => if nm = "#v" then some ("VAL") else none

/-- C3 counterexample: element `e1` is linked to the existing variable
`#v` and reported as temporarily unlinked; the spec's rule demands the
fallback `element.content = "orig"`, but the code — which never consults
the unlink collaborator — still substitutes the variable value `"VAL"`. -/
theorem resolver_unlink_counterexample :
    specContentChoice (fun _ => true) c3vars c3elem = ("orig") ∧
    contentToProcessOf c3vars c3elem = ("VAL") ∧
    ("VAL" : String) ≠ ("orig") := by
  refine ⟨by decide, by decide, by decide⟩

/-- C3 (amended): for every variable store and element, the content the
resolver processes is the variable's value exactly when `linkedVariable`
is set (non-empty) and the variable exists, and `element.content` in
every other case; resolution itself never modifies `element.content`. -/
theorem resolver_content_choice_amended (vars : String → Option String)
    (element : StructuralElement) :
    contentToProcessOf vars element = specContentChoiceAmended vars element := by
  unfold contentToProcessOf specContentChoiceAmended
  cases element.linkedVariable with
  | none => rfl
  | some nm =>
    show (if nm = "" then element.content
        else match vars nm with
          | some v => v
          | none => element.content) =
      (if nm = "" then element.content
        else if (vars nm).isSome = true then (vars nm).getD element.content
        else element.content)
    by_cases h : nm = ""
    · rw [if_pos h, if_pos h]
    · rw [if_neg h, if_neg h]
      cases hv : vars nm with
      | none => rfl
      | some v => rfl

def c9elem : StructuralElement :=
  ⟨"e9", "E", false, "some {{text:X:y}} content", some true, none⟩

/-- C9: a disabled element resolves to the empty string for every render
function, variable store, preview mode and control-value map. -/
theorem disabled_element_empty (render : String → List (String × JSVal) → String)
    (vars : String → Option String) (element : StructuralElement)
    (mode : PreviewMode) (vals : List (String × JSVal))
    (h : element.enabled = false) :
    getProcessedElementContent render vars element mode vals = "" := by
  unfold getProcessedElementContent
  rw [if_pos h]

/-- C9 witness: the disabled sample element resolves to the empty string. -/
theorem disabled_element_empty_witness :
    c9elem.enabled = false ∧
      getProcessedElementContent (fun c _ => c) (fun _ => none) c9elem
        PreviewMode.clean [] = "" :=
  ⟨rfl, disabled_element_empty (fun c _ => c) (fun _ => none) c9elem
    PreviewMode.clean [] rfl⟩

/-! ## Import reconciler (src/utils/elementOutput.ts: `analyzeImportData`,
`applyImportResolutions`). Payloads are modelled with fields either absent
(`none`) or well-typed, matching the export shapes of §6. -/

inductive ConflictType where
  | project
  | prompt
  | version
deriving DecidableEq, Repr

inductive Resolution where
  | overwrite
  | skip
  | duplicate
deriving DecidableEq, Repr

structure ImportConflict where
  id : String
  name : String
  type : ConflictType
  resolution : Resolution
deriving DecidableEq, Repr

inductive ImportKind where
  | prompt
  | project
  | workspace
  | bulkPrompts
  | bulkProjects
deriving DecidableEq, Repr

structure ImportAnalysis where
  type : ImportKind
  projects : List Project
  prompts : List Prompt
  versions : List Version
  conflicts : List ImportConflict
deriving DecidableEq, Repr

/-- An import payload: each field is `none` when the key is absent. The
TS field `structure` is spelled `structure_`. -/
structure ImportPayload where
  project : Option Project
  projects : Option (List Project)
  prompts : Option (List Prompt)
  prompt : Option Prompt
  uiState : Bool
  versions : Option (List Version)
  structure_ : Option (List StructuralElement)
  currentStructure : Option (List StructuralElement)
  exportedAt : Option Nat
deriving DecidableEq, Repr

/-- The version id minted for a root-level `structure`/`currentStructure`
field: `ver_${Date.now()}_import`. -/
def mkImportVerId (now : Nat) : String :=
  ("ver_") ++ toString now ++ ("_import")

/-- The shape-detection block of `analyzeImportData` (lines 44–118):
classified kind plus extracted projects, prompts and versions. -/
def analyzeShape (now : Nat) (data : ImportPayload) :
    ImportKind × List Project × List Prompt × List Version :=
  match data.project, data.projects with
  | some proj, none =>
    (ImportKind.project, [proj], data.prompts.getD [], data.versions.getD [])
  | _, _ =>
    match data.projects with
    | some projs =>
      if data.uiState then
        (ImportKind.workspace, projs, data.prompts.getD [], data.versions.getD [])
      else if projs.length = 1 then
        (ImportKind.project, projs, data.prompts.getD [], data.versions.getD [])
      else
        (ImportKind.bulkProjects, projs, data.prompts.getD [], data.versions.getD [])
    | none =>
      match data.prompts with
      | some ps =>
        if ps.length = 1 then (ImportKind.prompt, [], ps, data.versions.getD [])
        else (ImportKind.bulkPrompts, [], ps, data.versions.getD [])
      | none =>
        match data.prompt with
        | some p =>
          let vs := data.versions.getD []
          let vs2 :=
            if vs.length = 0 then
              match data.structure_ with
              | some st =>
                vs ++ [⟨mkImportVerId now, p.id, data.exportedAt.getD now, st, some false⟩]
              | none =>
                match data.currentStructure with
                | some st =>
                  vs ++ [⟨mkImportVerId now, p.id, data.exportedAt.getD now, st, some false⟩]
                | none => vs
            else vs
          (ImportKind.prompt, [], [p], vs2)
        | none => (ImportKind.prompt, [], [], [])

/-- Conflict name for a version: stands for the TS
`Version from ${new Date(createdAt).toLocaleDateString()}`. -/
def verConflictName (createdAt : Nat) : String :=
  ("Version from ") ++ toString createdAt

/-- `analyzeImportData(data, existingProjects, existingPrompts,
existingVersions)`. -/
def analyzeImportData (now : Nat) (data : ImportPayload)
    (existingProjects : List Project) (existingPrompts : List Prompt)
    (existingVersions : List Version) : ImportAnalysis :=
  let shape := analyzeShape now data
  let projects := shape.2.1
  let prompts := shape.2.2.1
  let versions := shape.2.2.2
  let projectConflicts := projects.filterMap (fun project =>
    if existingProjects.any (fun p => p.id = project.id) then
      some ⟨project.id, project.name, ConflictType.project, Resolution.overwrite⟩
    else none)
  let promptConflicts := prompts.filterMap (fun prompt =>
    if existingPrompts.any (fun p => p.id = prompt.id) then
      some ⟨prompt.id, prompt.name, ConflictType.prompt, Resolution.overwrite⟩
    else none)
  let versionConflicts := versions.filterMap (fun version =>
    if existingVersions.any (fun v => v.id = version.id) then
      some ⟨version.id, verConflictName version.createdAt,
        ConflictType.version, Resolution.overwrite⟩
    else none)
  ⟨shape.1, projects, prompts, versions,
    projectConflicts ++ promptConflicts ++ versionConflicts⟩

/-- `new Map(resolutions.map(r => [r.id, r])).get(id)`: the last entry for
a key wins. -/
def mapLookup (resolutions : List ImportConflict) (id : String) :
    Option ImportConflict :=
  (resolutions.filter (fun r => r.id = id)).getLast?

def dupProjId (now : Nat) (id : String) : String :=
  ("proj_") ++ toString now ++ ("_") ++ id

def dupPromptId (now : Nat) (id : String) : String :=
  ("prompt_") ++ toString now ++ ("_") ++ id

def dupVerIdIdx (now : Nat) (idx : Nat) (id : String) : String :=
  ("ver_") ++ toString now ++ ("_") ++ toString idx ++ ("_") ++ id

def dupVerId (now : Nat) (id : String) : String :=
  ("ver_") ++ toString now ++ ("_") ++ id

/-- JS `a || b` on strings: the empty string is falsy. -/
def jsOrStr (a b : String) : String :=
  if a = "" then b else a

structure ImportResult where
  projects : List Project
  prompts : List Prompt
  versions : List Version
deriving DecidableEq, Repr

/-- `sortedVersions.find(v => !v.isAutoSave)?.id || sortedVersions[0]?.id
|| ''` — the absent `?.id` is modelled as the empty string, which `||`
treats the same way as `undefined`. -/
def currentFromSorted (sortedVersions : List Version) : String :=
  jsOrStr
    (match sortedVersions.find? (fun v => tsIsAuto v.isAutoSave = false) with
      | some v => v.id
      | none => "")
    (jsOrStr
      (match sortedVersions.head? with
        | some v => v.id
        | none => "") "")

/-- The final `prompts.map` of `applyImportResolutions` (lines 246–277):
recompute `versions`/`currentVersion` from the retained versions. -/
def recomputePromptMeta (retainedAll : List Version) (prompt : Prompt) : Prompt :=
  let promptVersions := retainedAll.filter (fun v => v.promptId = prompt.id)
  if promptVersions.length > 0 then
    let versionIds :=
      (promptVersions.filter (fun v => tsIsAuto v.isAutoSave = false)).map (fun v => v.id)
    let currentVersion := currentFromSorted (sortByCreatedAtDesc promptVersions)
    { prompt with
      versions :=
        if versionIds.length > 0 then versionIds
        else if currentVersion = "" then [] else [currentVersion],
      currentVersion := jsOrStr currentVersion (jsOrStr prompt.currentVersion "") }
  else
    { prompt with
      versions := prompt.versions,
      currentVersion := jsOrStr prompt.currentVersion "" }

/-- Project-resolution step of `applyImportResolutions` (lines 181–192). -/
def applyProjectResolutions (now : Nat) (analysis : ImportAnalysis)
    (resolutions : List ImportConflict) : List Project :=
  analysis.projects.filterMap (fun project =>
    match mapLookup resolutions project.id with
    | some r =>
      match r.resolution with
      | Resolution.skip => none
      | Resolution.duplicate => some { project with id := dupProjId now project.id }
      | Resolution.overwrite => some project
    | none => some project)

/-- Prompt-resolution step of `applyImportResolutions` (lines 194–220):
resulting prompts plus the versions minted for duplicated prompts, which
the TS code pushes into the shared `versions` array. -/
def applyPromptStage (now : Nat) (analysis : ImportAnalysis)
    (resolutions : List ImportConflict) : List Prompt × List Version :=
  analysis.prompts.foldl (fun (acc : List Prompt × List Version) prompt =>
    match mapLookup resolutions prompt.id with
    | some r =>
      match r.resolution with
      | Resolution.skip => acc
      | Resolution.duplicate =>
        let newId := dupPromptId now prompt.id
        let associatedVersions :=
          analysis.versions.filter (fun v => v.promptId = prompt.id)
        let dup := associatedVersions.foldl (fun (st : List Version × Nat) v =>
          match mapLookup resolutions v.id with
          | some vr =>
            if vr.resolution = Resolution.skip then st
            else (st.1 ++ [{ v with id := dupVerIdIdx now st.2 v.id, promptId := newId }],
              st.2 + 1)
          | none => st) ([], 0)
        (acc.1 ++ [{ prompt with id := newId }], acc.2 ++ dup.1)
      | Resolution.overwrite => (acc.1 ++ [prompt], acc.2)
    | none => (acc.1 ++ [prompt], acc.2)) ([], [])

/-- Version-resolution step of `applyImportResolutions` (lines 222–242),
appending to the versions already produced by prompt duplication. -/
def applyVersionStage (now : Nat) (analysis : ImportAnalysis)
    (resolutions : List ImportConflict) : List Version :=
  analysis.versions.foldl (fun vacc version =>
    match mapLookup resolutions version.id with
    | some r =>
      if r.resolution = Resolution.skip then vacc
      else if vacc.any (fun v => v.id = version.id) then vacc
      else if r.resolution = Resolution.duplicate then
        vacc ++ [{ version with id := dupVerId now version.id }]
      else vacc ++ [version]
    | none =>
      if vacc.any (fun v => v.id = version.id) then vacc
      else vacc ++ [version]) (applyPromptStage now analysis resolutions).2

/-- `applyImportResolutions(analysis, resolutions)`, assembled from its
three stages followed by the per-prompt metadata recomputation. All
`Date.now()` calls inside one invocation are modelled by the single
`now`. -/
def applyImportResolutions (now : Nat) (analysis : ImportAnalysis)
    (resolutions : List ImportConflict) : ImportResult :=
  ⟨applyProjectResolutions now analysis resolutions,
    (applyPromptStage now analysis resolutions).1.map
      (recomputePromptMeta (applyVersionStage now analysis resolutions)),
    applyVersionStage now analysis resolutions⟩

/-! ## Sorting facts -/

theorem head?_mem {α : Type} {l : List α} {a : α} (h : l.head? = some a) : a ∈ l := by
  cases l with
  | nil => cases h
  | cons b t =>
    have : b = a := by simpa using h
    exact this ▸ List.mem_cons_self b t

theorem mem_insertDesc {v x : Version} :
    ∀ {l : List Version}, x ∈ insertDesc v l ↔ x = v ∨ x ∈ l := by
  intro l
  induction l with
  | nil => simp [insertDesc]
  | cons a t ih =>
    unfold insertDesc
    by_cases h : a.createdAt ≤ v.createdAt
    · rw [if_pos h]
      simp [List.mem_cons]
    · rw [if_neg h]
      simp only [List.mem_cons, ih]
      tauto

theorem mem_sortDesc {x : Version} :
    ∀ {l : List Version}, x ∈ sortByCreatedAtDesc l ↔ x ∈ l := by
  intro l
  induction l with
  | nil => simp [sortByCreatedAtDesc]
  | cons a t ih =>
    show x ∈ insertDesc a (sortByCreatedAtDesc t) ↔ _
    rw [mem_insertDesc]
    simp only [List.mem_cons, ih]

theorem insertDesc_ne_nil (v : Version) (l : List Version) : insertDesc v l ≠ [] := by
  cases l with
  | nil => simp [insertDesc]
  | cons a t =>
    unfold insertDesc
    by_cases h : a.createdAt ≤ v.createdAt
    · rw [if_pos h]; simp
    · rw [if_neg h]; simp

theorem sortDesc_ne_nil {l : List Version} (h : l ≠ []) :
    sortByCreatedAtDesc l ≠ [] := by
  cases l with
  | nil => exact absurd rfl h
  | cons a t => exact insertDesc_ne_nil a (sortByCreatedAtDesc t)

/-! ## C4: `currentVersion` recomputation -/

/-- From the spec's words: the most recent retained non-autosave version's
id, else the most recent retained autosave's id, else empty. -/
def specCurrentVersion (retained : List Version) : String :=
  match (sortByCreatedAtDesc retained).find? (fun v => tsIsAuto v.isAutoSave = false) with
  | some v => v.id
  | none =>
    match (sortByCreatedAtDesc retained).head? with
    | some v => v.id
    | none => ""

/-- From the spec's words: the recomputed `versions` field — the ids of the
retained non-autosave versions, else the single recomputed current
version's id. -/
def specVersionIds (retained : List Version) : List String :=
  if ((retained.filter (fun v => tsIsAuto v.isAutoSave = false)).map
      (fun v => v.id)).length > 0 then
    (retained.filter (fun v => tsIsAuto v.isAutoSave = false)).map (fun v => v.id)
  else [specCurrentVersion retained]

theorem recompute_id (vs : List Version) (q : Prompt) :
    (recomputePromptMeta vs q).id = q.id := by
  unfold recomputePromptMeta
  by_cases h : (vs.filter (fun v => v.promptId = q.id)).length > 0
  · rw [if_pos h]
  · rw [if_neg h]

def c4prompt : Prompt := ⟨"p1", "P", ["v1"], "v1", [], 0⟩

def c4version : Version := ⟨"v1", "p1", 5, [], some false⟩

def c4analysis : ImportAnalysis :=
  ⟨ImportKind.prompt, [], [c4prompt], [c4version], []⟩

def c4res : List ImportConflict :=
  [⟨"v1", "x", ConflictType.version, Resolution.skip⟩]

/-- C4 counterexample: skipping the only version of prompt `p1` leaves no
retained version, yet the resulting prompt keeps `currentVersion = "v1"`
— the id of the dropped version — instead of the empty string the claim
demands. -/
theorem import_current_version_counterexample :
    (applyImportResolutions 9 c4analysis c4res).versions = [] ∧
    (applyImportResolutions 9 c4analysis c4res).prompts.map
      (fun p => p.currentVersion) = [("v1")] ∧
    (applyImportResolutions 9 c4analysis c4res).prompts.map
      (fun p => p.versions) = [[("v1")]] := by
  refine ⟨by decide, by decide, by decide⟩

/-- C4 (amended): for every prompt in the result that retains at least one
version (all with non-empty ids), both `currentVersion` and `versions` are
recomputed from the actually retained versions: `currentVersion` is the
most recent retained non-autosave version's id, else the most recent
retained autosave's id; `versions` is the list of retained non-autosave
ids, else the single recomputed current version's id — in particular both
reference only retained versions. When no version is retained for a
prompt, the incoming `versions`/`currentVersion` are kept as they are (so
`currentVersion` may still name a dropped version). -/
theorem import_current_version_amended (now : Nat) (analysis : ImportAnalysis)
    (resolutions : List ImportConflict) (p : Prompt)
    (hp : p ∈ (applyImportResolutions now analysis resolutions).prompts)
    (hne : (applyImportResolutions now analysis resolutions).versions.filter
      (fun v => v.promptId = p.id) ≠ [])
    (hid : ∀ v ∈ (applyImportResolutions now analysis resolutions).versions.filter
      (fun v => v.promptId = p.id), v.id ≠ "") :
    p.currentVersion = specCurrentVersion
      ((applyImportResolutions now analysis resolutions).versions.filter
        (fun v => v.promptId = p.id)) ∧
    p.currentVersion ∈
      (((applyImportResolutions now analysis resolutions).versions.filter
        (fun v => v.promptId = p.id)).map (fun v => v.id)) ∧
    p.versions = specVersionIds
      ((applyImportResolutions now analysis resolutions).versions.filter
        (fun v => v.promptId = p.id)) ∧
    (∀ vid ∈ p.versions, vid ∈
      (((applyImportResolutions now analysis resolutions).versions.filter
        (fun v => v.promptId = p.id)).map (fun v => v.id))) := by
  obtain ⟨q, hq, hfq⟩ := List.mem_map.mp hp
  have hids : p.id = q.id := by rw [← hfq]; exact recompute_id _ q
  set V2 := applyVersionStage now analysis resolutions with hV2
  have hVR : (applyImportResolutions now analysis resolutions).versions = V2 := rfl
  rw [hVR] at hne hid ⊢
  rw [hids] at hne hid ⊢
  set retained := V2.filter (fun v => v.promptId = q.id) with hret
  have hlen : retained.length > 0 := List.length_pos.mpr hne
  have hcv : p.currentVersion =
      jsOrStr (currentFromSorted (sortByCreatedAtDesc retained))
        (jsOrStr q.currentVersion "") := by
    rw [← hfq]
    unfold recomputePromptMeta
    rw [if_pos hlen]
  have hval : currentFromSorted (sortByCreatedAtDesc retained) =
        specCurrentVersion retained ∧
      specCurrentVersion retained ∈ retained.map (fun v => v.id) ∧
      specCurrentVersion retained ≠ "" := by
    unfold currentFromSorted specCurrentVersion
    rcases hfind : (sortByCreatedAtDesc retained).find?
        (fun v => tsIsAuto v.isAutoSave = false) with _ | v
    · have hsne : sortByCreatedAtDesc retained ≠ [] := sortDesc_ne_nil hne
      rcases hhead : (sortByCreatedAtDesc retained).head? with _ | v0
      · exact absurd (List.head?_eq_none_iff.mp hhead) hsne
      · rw [hfind]
        have hv0mem : v0 ∈ retained := mem_sortDesc.mp (head?_mem hhead)
        have hv0 : v0.id ≠ "" := hid v0 hv0mem
        refine ⟨?_, List.mem_map.mpr ⟨v0, hv0mem, rfl⟩, hv0⟩
        show jsOrStr ("") (jsOrStr v0.id "") = v0.id
        unfold jsOrStr
        rw [if_pos rfl, if_neg hv0]
    · rw [hfind]
      have hvmem : v ∈ retained := mem_sortDesc.mp (List.mem_of_find?_eq_some hfind)
      have hv : v.id ≠ "" := hid v hvmem
      refine ⟨?_, List.mem_map.mpr ⟨v, hvmem, rfl⟩, hv⟩
      show jsOrStr v.id _ = v.id
      unfold jsOrStr
      rw [if_neg hv]
  obtain ⟨hv1, hv2, hv3⟩ := hval
  have hfinal : p.currentVersion = specCurrentVersion retained := by
    rw [hcv, hv1]
    unfold jsOrStr
    rw [if_neg hv3]
  have hvers : p.versions =
      (if ((retained.filter (fun v => tsIsAuto v.isAutoSave = false)).map
          (fun v => v.id)).length > 0 then
        (retained.filter (fun v => tsIsAuto v.isAutoSave = false)).map (fun v => v.id)
      else if currentFromSorted (sortByCreatedAtDesc retained) = "" then []
      else [currentFromSorted (sortByCreatedAtDesc retained)]) := by
    rw [← hfq]
    unfold recomputePromptMeta
    rw [if_pos hlen]
  have hrest : p.versions = specVersionIds retained ∧
      ∀ vid ∈ p.versions, vid ∈ retained.map (fun v => v.id) := by
    by_cases hnon : ((retained.filter (fun v => tsIsAuto v.isAutoSave = false)).map
        (fun v => v.id)).length > 0
    · have hv4 : p.versions =
          (retained.filter (fun v => tsIsAuto v.isAutoSave = false)).map
            (fun v => v.id) := by
        rw [hvers, if_pos hnon]
      refine ⟨?_, ?_⟩
      · rw [hv4]
        unfold specVersionIds
        rw [if_pos hnon]
      · intro vid hvid
        rw [hv4] at hvid
        obtain ⟨v, hvf, hve⟩ := List.mem_map.mp hvid
        exact List.mem_map.mpr ⟨v, (List.mem_filter.mp hvf).1, hve⟩
    · have hcfs : currentFromSorted (sortByCreatedAtDesc retained) ≠ "" := by
        rw [hv1]
        exact hv3
      have hv4 : p.versions = [currentFromSorted (sortByCreatedAtDesc retained)] := by
        rw [hvers, if_neg hnon, if_neg hcfs]
      refine ⟨?_, ?_⟩
      · rw [hv4, hv1]
        unfold specVersionIds
        rw [if_neg hnon]
      · intro vid hvid
        rw [hv4, hv1] at hvid
        have hvid2 : vid = specCurrentVersion retained := by simpa using hvid
        rw [hvid2]
        exact hv2
  exact ⟨hfinal, hfinal ▸ hv2, hrest.1, hrest.2⟩

def w4prompt : Prompt := ⟨"p1", "P", [], "", [], 0⟩

def w4version : Version := ⟨"v1", "p1", 5, [], some false⟩

def w4analysis : ImportAnalysis :=
  ⟨ImportKind.prompt, [], [w4prompt], [w4version], []⟩

/-- C4 witness: with one retained version, the amended theorem applies and
recomputes both `currentVersion` and `versions` from it. -/
theorem import_current_version_amended_witness :
    ∃ p ∈ (applyImportResolutions 7 w4analysis []).prompts,
      p.currentVersion = specCurrentVersion
        ((applyImportResolutions 7 w4analysis []).versions.filter
          (fun v => v.promptId = p.id)) ∧
      p.versions = specVersionIds
        ((applyImportResolutions 7 w4analysis []).versions.filter
          (fun v => v.promptId = p.id)) := by
  refine ⟨recomputePromptMeta (applyVersionStage 7 w4analysis []) w4prompt,
    by decide, ?_, ?_⟩
  · exact (import_current_version_amended 7 w4analysis []
      (recomputePromptMeta (applyVersionStage 7 w4analysis []) w4prompt)
      (by decide) (by decide) (by decide)).1
  · exact (import_current_version_amended 7 w4analysis []
      (recomputePromptMeta (applyVersionStage 7 w4analysis []) w4prompt)
      (by decide) (by decide) (by decide)).2.2.1

/-! ## C6: payload shape classification and conflict defaults -/

/-- Modelled from the spec: §4.6's ordered decision table read literally —
first matching rule wins in the order single-project-key, projects-array
(uiState → workspace, length 1 → project, else bulk-projects),
prompts-array (length 1 → prompt, else bulk-prompts), single-prompt-key;
an unrecognized payload keeps the initial `prompt` kind. -/
def specClassify (data : ImportPayload) : ImportKind :=
  if data.project.isSome then ImportKind.project
  else if data.projects.isSome then
    (if data.uiState then ImportKind.workspace
      else if (data.projects.getD []).length = 1 then ImportKind.project
      else ImportKind.bulkProjects)
  else if data.prompts.isSome then
    (if (data.prompts.getD []).length = 1 then ImportKind.prompt
      else ImportKind.bulkPrompts)
  else if data.prompt.isSome then ImportKind.prompt
  else ImportKind.prompt

/-- Modelled from the spec, as amended: identical to `specClassify` except
that the single-project-key rule additionally requires the `projects` key
to be absent (the code's first test is `data.project && !data.projects`).
-/
def specClassifyAmended (data : ImportPayload) : ImportKind :=
  if data.project.isSome ∧ data.projects.isNone then ImportKind.project
  else if data.projects.isSome then
    (if data.uiState then ImportKind.workspace
      else if (data.projects.getD []).length = 1 then ImportKind.project
      else ImportKind.bulkProjects)
  else if data.prompts.isSome then
    (if (data.prompts.getD []).length = 1 then ImportKind.prompt
      else ImportKind.bulkPrompts)
  else if data.prompt.isSome then ImportKind.prompt
  else ImportKind.prompt

theorem shape_type_eq_amended (now : Nat) (data : ImportPayload) :
    (analyzeShape now data).1 = specClassifyAmended data := by
  unfold analyzeShape specClassifyAmended
  rcases hpj : data.project with _ | proj <;>
    rcases hpjs : data.projects with _ | projs <;>
      rcases hps : data.prompts with _ | ps <;>
        rcases hp : data.prompt with _ | p <;>
          simp [hpj, hpjs, hps, hp] <;> (try split) <;> (try split) <;> rfl

def c6projA : Project := ⟨"a", "A", [], [], 0⟩

def c6projB : Project := ⟨"b", "B", [], [], 0⟩

def c6projC : Project := ⟨"c", "C", [], [], 0⟩

def c6payload : ImportPayload :=
  ⟨some c6projA, some [c6projB, c6projC], none, none, false, none, none, none, none⟩

/-- C6 counterexample: a payload carrying both a `project` key and a
two-element `projects` array. The spec's first-match order classifies it
by the single-project-key rule as `project`; the code's first rule
requires `projects` to be absent, so it classifies the payload as
`bulk-projects`. -/
theorem import_shape_order_counterexample :
    specClassify c6payload = ImportKind.project ∧
    (analyzeImportData 0 c6payload [] [] []).type = ImportKind.bulkProjects ∧
    ImportKind.project ≠ ImportKind.bulkProjects := by
  refine ⟨by decide, by decide, by decide⟩

/-- C6 (amended): the classification equals the spec's ordered decision
table with the single-project-key rule restricted to payloads without a
`projects` key; and every extracted project, prompt or version whose id
already exists in the corresponding existing collection yields a conflict
entry with default resolution `overwrite`. -/
theorem import_analysis_amended :
    (∀ (now : Nat) (data : ImportPayload) (eP : List Project) (ePr : List Prompt)
        (eV : List Version),
        (analyzeImportData now data eP ePr eV).type = specClassifyAmended data) ∧
    (∀ (now : Nat) (data : ImportPayload) (eP : List Project) (ePr : List Prompt)
        (eV : List Version),
      (∀ proj ∈ (analyzeImportData now data eP ePr eV).projects,
        (∃ ex ∈ eP, ex.id = proj.id) →
        ∃ c ∈ (analyzeImportData now data eP ePr eV).conflicts,
          c.id = proj.id ∧ c.type = ConflictType.project ∧
            c.resolution = Resolution.overwrite) ∧
      (∀ pr ∈ (analyzeImportData now data eP ePr eV).prompts,
        (∃ ex ∈ ePr, ex.id = pr.id) →
        ∃ c ∈ (analyzeImportData now data eP ePr eV).conflicts,
          c.id = pr.id ∧ c.type = ConflictType.prompt ∧
            c.resolution = Resolution.overwrite) ∧
      (∀ v ∈ (analyzeImportData now data eP ePr eV).versions,
        (∃ ex ∈ eV, ex.id = v.id) →
        ∃ c ∈ (analyzeImportData now data eP ePr eV).conflicts,
          c.id = v.id ∧ c.type = ConflictType.version ∧
            c.resolution = Resolution.overwrite)) := by
  constructor
  · intro now data eP ePr eV
    exact shape_type_eq_amended now data
  · intro now data eP ePr eV
    refine ⟨?_, ?_, ?_⟩
    · intro proj hm hex
      refine ⟨⟨proj.id, proj.name, ConflictType.project, Resolution.overwrite⟩,
        ?_, rfl, rfl, rfl⟩
      apply List.mem_append.mpr
      left
      apply List.mem_append.mpr
      left
      apply List.mem_filterMap.mpr
      refine ⟨proj, hm, ?_⟩
      rw [if_pos ?_]
      apply List.any_eq_true.mpr
      obtain ⟨ex, hexm, hexid⟩ := hex
      exact ⟨ex, hexm, by simpa using hexid⟩
    · intro pr hm hex
      refine ⟨⟨pr.id, pr.name, ConflictType.prompt, Resolution.overwrite⟩,
        ?_, rfl, rfl, rfl⟩
      apply List.mem_append.mpr
      left
      apply List.mem_append.mpr
      right
      apply List.mem_filterMap.mpr
      refine ⟨pr, hm, ?_⟩
      rw [if_pos ?_]
      apply List.any_eq_true.mpr
      obtain ⟨ex, hexm, hexid⟩ := hex
      exact ⟨ex, hexm, by simpa using hexid⟩
    · intro v hm hex
      refine ⟨⟨v.id, verConflictName v.createdAt, ConflictType.version,
        Resolution.overwrite⟩, ?_, rfl, rfl, rfl⟩
      apply List.mem_append.mpr
      right
      apply List.mem_filterMap.mpr
      refine ⟨v, hm, ?_⟩
      rw [if_pos ?_]
      apply List.any_eq_true.mpr
      obtain ⟨ex, hexm, hexid⟩ := hex
      exact ⟨ex, hexm, by simpa using hexid⟩

/-- C6 witness: importing a project whose id already exists yields an
`overwrite` conflict entry for it. -/
theorem import_analysis_amended_witness :
    (analyzeImportData 3 c6payload [] [] []).type = specClassifyAmended c6payload ∧
    ∃ c ∈ (analyzeImportData 3 c6payload [c6projB] [] []).conflicts,
      c.id = c6projB.id ∧ c.type = ConflictType.project ∧
        c.resolution = Resolution.overwrite := by
  refine ⟨import_analysis_amended.1 3 c6payload [] [] [], ?_⟩
  exact (import_analysis_amended.2 3 c6payload [c6projB] [] []).1 c6projB
    (by decide) ⟨c6projB, List.mem_cons_self _ _, rfl⟩

/-! ## Working-state store (src/stores/editorStore.ts)

JS `Record<string, T>` objects are duplicate-free association lists with
`lookupR`/`setR`/`eraseR`; object spreads `{...base, ...patch}` over
`Partial<PromptUIState>` are made explicit with a per-field
present/absent patch (`KP`), since a key present with value `undefined`
overwrites while an absent key preserves. -/

def lookupR {α : Type} (m : List (String × α)) (k : String) : Option α :=
  (m.find? (fun kv => kv.1 = k)).map (fun kv => kv.2)

def setR {α : Type} (m : List (String × α)) (k : String) (v : α) :
    List (String × α) :=
  match m with
  | [] => [(k, v)]
  | kv :: rest => if kv.1 = k then (k, v) :: rest else kv :: setR rest k v

def eraseR {α : Type} (m : List (String × α)) (k : String) : List (String × α) :=
  m.filter (fun kv => kv.1 ≠ k)

/-- One entry of `uiCollapsedByElementId`. -/
structure CollapsedEntry where
  text : Bool
  controls : Bool
  lastExpandedState : Option (Bool × Bool)
deriving DecidableEq, Repr

structure PromptUIState where
  starredControls : List (String × List String)
  starredTextBoxes : List String
  uiGlobalControlValues : List (String × JSVal)
  uiCollapsedByElementId : List (String × CollapsedEntry)
  uiMiniEditorCollapsed : List (String × Bool)
  modifiedStructure : Option (List StructuralElement)
  originalStructure : Option (List StructuralElement)
  originalControlValues : Option (List (String × JSVal))
deriving DecidableEq, Repr

/-- The default `{starredControls: {}, starredTextBoxes: [], ...}` object
used when a prompt has no stored UI state. -/
def emptyUIState : PromptUIState :=
  ⟨[], [], [], [], [], none, none, none⟩

/-- A key of a `Partial<PromptUIState>`: absent (`keep`) or present with a
value (`put`) — a present key overwrites in `{...base, ...patch}` even
when its value is `undefined`. -/
inductive KP (α : Type) where
  | keep
  | put (v : α)
deriving DecidableEq, Repr

def KP.apply {α : Type} : KP α → α → α
  | KP.keep, a => a
  | KP.put v, _ => v

/-- A `Partial<PromptUIState>` with explicit key presence. -/
structure UIPatch where
  starredControls : KP (List (String × List String))
  starredTextBoxes : KP (List String)
  uiGlobalControlValues : KP (List (String × JSVal))
  uiCollapsedByElementId : KP (List (String × CollapsedEntry))
  uiMiniEditorCollapsed : KP (List (String × Bool))
  modifiedStructure : KP (Option (List StructuralElement))
  originalStructure : KP (Option (List StructuralElement))
  originalControlValues : KP (Option (List (String × JSVal)))
deriving DecidableEq, Repr

/-- `{...base, ...patch}`. -/
def applyUIPatch (base : PromptUIState) (p : UIPatch) : PromptUIState :=
  ⟨p.starredControls.apply base.starredControls,
    p.starredTextBoxes.apply base.starredTextBoxes,
    p.uiGlobalControlValues.apply base.uiGlobalControlValues,
    p.uiCollapsedByElementId.apply base.uiCollapsedByElementId,
    p.uiMiniEditorCollapsed.apply base.uiMiniEditorCollapsed,
    p.modifiedStructure.apply base.modifiedStructure,
    p.originalStructure.apply base.originalStructure,
    p.originalControlValues.apply base.originalControlValues⟩

/-- The store state — the fields touched by the modelled actions. The TS
field `structure` is spelled `structure_`. -/
structure EditorState where
  structure_ : List StructuralElement
  currentPrompt : Option Prompt
  projects : List Project
  prompts : List Prompt
  versions : List Version
  promptUIStates : List (String × PromptUIState)
  uiGlobalControlValues : List (String × JSVal)
  uiCollapsedByElementId : List (String × CollapsedEntry)
  uiMiniEditorCollapsed : List (String × Bool)
  starredControls : List (String × List String)
  starredTextBoxes : List String
deriving DecidableEq, Repr

/-- `setPromptUIState(promptId, uiState)`: merge the patch over the
stored state (or the five-field default). -/
def setPromptUIState (promptId : String) (p : UIPatch) (s : EditorState) :
    EditorState :=
  { s with
    promptUIStates := setR s.promptUIStates promptId
      (applyUIPatch ((lookupR s.promptUIStates promptId).getD emptyUIState) p) }

/-- A `Partial<StructuralElement>`. -/
structure ElementPatch where
  id : Option String
  name : Option String
  enabled : Option Bool
  content : Option String
  autoRemoveEmptyLines : Option (Option Bool)
  linkedVariable : Option (Option String)
deriving DecidableEq, Repr

/-- `{...element, ...updates}`. -/
def applyElementPatch (el : StructuralElement) (p : ElementPatch) :
    StructuralElement :=
  ⟨p.id.getD el.id, p.name.getD el.name, p.enabled.getD el.enabled,
    p.content.getD el.content,
    p.autoRemoveEmptyLines.getD el.autoRemoveEmptyLines,
    p.linkedVariable.getD el.linkedVariable⟩

/-- An updates object carrying only `content`. -/
def contentPatch (c : String) : ElementPatch :=
  ⟨none, none, none, some c, none, none⟩

/-- `updateStructuralElement(id, updates)`: map the live structure and
mirror it into the current prompt's `modifiedStructure`; the TS code
re-assigns `originalStructure`/`originalControlValues` to their own
values, so the net effect on the stored state is a `modifiedStructure`
update. -/
def updateStructuralElement (id : String) (patch : ElementPatch)
    (s : EditorState) : EditorState :=
  let updatedStructure :=
    s.structure_.map (fun el => if el.id = id then applyElementPatch el patch else el)
  let promptUIStates' :=
    match s.currentPrompt with
    | none => s.promptUIStates
    | some cp =>
      let currentUIState := (lookupR s.promptUIStates cp.id).getD emptyUIState
      setR s.promptUIStates cp.id
        { currentUIState with modifiedStructure := some updatedStructure }
  { s with structure_ := updatedStructure, promptUIStates := promptUIStates' }

/-- A `Partial<Prompt>`. -/
structure PromptPatch where
  id : Option String
  name : Option String
  versions : Option (List String)
  currentVersion : Option String
  tags : Option (List String)
  createdAt : Option Nat
deriving DecidableEq, Repr

def applyPromptPatch (p : Prompt) (u : PromptPatch) : Prompt :=
  ⟨u.id.getD p.id, u.name.getD p.name, u.versions.getD p.versions,
    u.currentVersion.getD p.currentVersion, u.tags.getD p.tags,
    u.createdAt.getD p.createdAt⟩

/-- `updatePrompt(id, updates)`. -/
def updatePrompt (id : String) (u : PromptPatch) (s : EditorState) : EditorState :=
  { s with prompts :=
      s.prompts.map (fun p => if p.id = id then applyPromptPatch p u else p) }

/-- A `Partial<Version>`; the TS field `structure` is `structure_`. -/
structure VersionPatch where
  id : Option String
  promptId : Option String
  createdAt : Option Nat
  structure_ : Option (List StructuralElement)
  isAutoSave : Option (Option Bool)
deriving DecidableEq, Repr

def applyVersionPatch (v : Version) (u : VersionPatch) : Version :=
  ⟨u.id.getD v.id, u.promptId.getD v.promptId, u.createdAt.getD v.createdAt,
    u.structure_.getD v.structure_, u.isAutoSave.getD v.isAutoSave⟩

/-- `addVersion(version)`. -/
def addVersion (v : Version) (s : EditorState) : EditorState :=
  { s with versions := s.versions ++ [v] }

/-- `updateVersion(id, updates)`. -/
def updateVersion (id : String) (u : VersionPatch) (s : EditorState) : EditorState :=
  { s with versions :=
      s.versions.map (fun v => if v.id = id then applyVersionPatch v u else v) }

/-- `deleteVersion(id)`. -/
def deleteVersion (id : String) (s : EditorState) : EditorState :=
  { s with versions := s.versions.filter (fun v => v.id ≠ id) }

/-- `deletePrompt(id)` (lines 563–572). -/
def deletePrompt (id : String) (s : EditorState) : EditorState :=
  { s with
    prompts := s.prompts.filter (fun p => p.id ≠ id),
    versions := s.versions.filter (fun v => v.promptId ≠ id),
    promptUIStates := eraseR s.promptUIStates id }

/-- `ver_${Date.now()}`. -/
def mkVerId (now : Nat) : String :=
  ("ver_") ++ toString now

/-- `ensureElementDefaults`. -/
def ensureElementDefaults (el : StructuralElement) : StructuralElement :=
  { el with autoRemoveEmptyLines := some (el.autoRemoveEmptyLines.getD true) }

/-- `ensureStructureDefaults`. -/
def ensureStructureDefaults (structure_ : List StructuralElement) :
    List StructuralElement :=
  structure_.map ensureElementDefaults

/-- `saveCurrentPrompt(isAutoSave)` (lines 786–825). -/
def saveCurrentPrompt (now : Nat) (isAutoSave : Bool) (s : EditorState) :
    EditorState :=
  match s.currentPrompt with
  | none => s
  | some cp =>
    let newVersion : Version := ⟨mkVerId now, cp.id, now, s.structure_, some isAutoSave⟩
    if isAutoSave then
      match s.versions.find?
          (fun v => decide (v.promptId = cp.id ∧ v.isAutoSave = some true)) with
      | some existingAutoSave =>
        updateVersion existingAutoSave.id
          ⟨none, none, some now, some s.structure_, none⟩ s
      | none => addVersion newVersion s
    else
      updatePrompt cp.id
        ⟨none, none, some (cp.versions ++ [newVersion.id]), some newVersion.id,
          none, none⟩
        (addVersion newVersion s)

/-- The auto-save half of the flush (lines 602–625): with a non-empty
structure to save, update the outgoing prompt's existing auto-save found
in the entry snapshot's versions, or create a new one. -/
def autoSaveStep (now : Nat) (cp : Prompt)
    (structureToSave : Option (List StructuralElement))
    (entryVersions : List Version) (s1 : EditorState) : EditorState :=
  match structureToSave with
  | some sts =>
    if sts.length > 0 then
      match entryVersions.find?
          (fun v => decide (v.promptId = cp.id ∧ v.isAutoSave = some true)) with
      | some existingAutoSave =>
        updateVersion existingAutoSave.id ⟨none, none, some now, some sts, none⟩ s1
      | none => addVersion ⟨mkVerId now, cp.id, now, sts, some true⟩ s1
    else s1
  | none => s1

/-- The `currentPromptUIState` object built by the flush (lines 579–598):
the five live UI fields, `modifiedStructure` always present (possibly
`undefined`), and the `original*` keys present only when the stored state
already has them. -/
def flushPatchOf (s : EditorState) (cp : Prompt) : UIPatch :=
  ⟨KP.put s.starredControls, KP.put s.starredTextBoxes,
    KP.put s.uiGlobalControlValues, KP.put s.uiCollapsedByElementId,
    KP.put s.uiMiniEditorCollapsed,
    KP.put (if s.structure_.length > 0 then some s.structure_ else none),
    (match (lookupR s.promptUIStates cp.id).bind (fun u => u.originalStructure) with
      | some o => KP.put (some o)
      | none => KP.keep),
    (match (lookupR s.promptUIStates cp.id).bind (fun u => u.originalControlValues) with
      | some o => KP.put (some o)
      | none => KP.keep)⟩

/-- The flush half of `setCurrentPrompt` (lines 577–626): persist the
outgoing prompt's UI state and `modifiedStructure`, then create or update
its single auto-save. -/
def flushPhase (now : Nat) (s : EditorState) : EditorState :=
  match s.currentPrompt with
  | none => s
  | some cp =>
    autoSaveStep now cp
      (if s.structure_.length > 0 then some s.structure_ else none) s.versions
      (setPromptUIState cp.id (flushPatchOf s cp) s)

/-- The version-priority load of `setCurrentPrompt` (lines 670–700):
`currentVersion`, else latest non-autosave, else latest autosave, each
step re-checked against an empty result. -/
def loadStructureFromVersions (s0 : EditorState) (np : Prompt) :
    List StructuralElement :=
  let fromCurrent :=
    if np.currentVersion ≠ "" then
      match s0.versions.find? (fun v => v.id = np.currentVersion) with
      | some currentVersion => currentVersion.structure_
      | none => []
    else []
  let afterNonAuto :=
    if fromCurrent.length = 0 then
      match (sortByCreatedAtDesc (s0.versions.filter
          (fun v => decide (v.promptId = np.id ∧ tsIsAuto v.isAutoSave = false)))).head? with
      | some v => v.structure_
      | none => fromCurrent
    else fromCurrent
  if afterNonAuto.length = 0 then
    match (sortByCreatedAtDesc (s0.versions.filter
        (fun v => decide (v.promptId = np.id ∧ v.isAutoSave = some true)))).head? with
    | some v => v.structure_
    | none => afterNonAuto
  else afterNonAuto

/-- Modelled from the spec: the default control values extracted from
element content by the Control Syntax Parser (§4.1, `parseControlSyntax`,
whose source is not in the snapshot); `defaultsOf content` lists the
`(name, defaultValue)` pairs in document order and the fold assigns them
in order. -/
def controlDefaultsOf (defaultsOf : String → List (String × JSVal))
    (structure_ : List StructuralElement) : List (String × JSVal) :=
  structure_.foldl
    (fun acc el => (defaultsOf el.content).foldl (fun m kv => setR m kv.1 kv.2) acc)
    []

/-- `setCurrentPrompt(prompt)` (lines 574–763): flush the outgoing prompt,
then populate working state for the incoming one. All reads go against
the entry snapshot `s0` (the TS `state` captured by `get()` at entry);
updates are threaded through the flushed state. -/
def setCurrentPrompt (defaultsOf : String → List (String × JSVal)) (now : Nat)
    (prompt : Option Prompt) (s0 : EditorState) : EditorState :=
  let s2 := flushPhase now s0
  match prompt with
  | none =>
    { s2 with
      currentPrompt := none
      structure_ := []
      starredControls := []
      starredTextBoxes := []
      uiGlobalControlValues := []
      uiCollapsedByElementId := []
      uiMiniEditorCollapsed := [] }
  | some np =>
    let savedUIState := lookupR s0.promptUIStates np.id
    let uiStateToLoad : PromptUIState :=
      match savedUIState with
      | some sv =>
        ⟨sv.starredControls, sv.starredTextBoxes, sv.uiGlobalControlValues,
          sv.uiCollapsedByElementId, sv.uiMiniEditorCollapsed, none, none, none⟩
      | none => emptyUIState
    let structureFromModified : List StructuralElement :=
      match savedUIState with
      | some sv =>
        match sv.modifiedStructure with
        | some ms => if ms.length > 0 then ms else []
        | none => []
      | none => []
    let origFromSaved : Option (List StructuralElement) :=
      match savedUIState with
      | some sv =>
        match sv.originalStructure with
        | some o => some o
        | none =>
          match sv.modifiedStructure with
          | some ms => if ms.length > 0 then some ms else none
          | none => none
      | none => none
    let origCVFromSaved : Option (List (String × JSVal)) :=
      savedUIState.bind (fun sv => sv.originalControlValues)
    let structureToLoad :=
      if structureFromModified.length = 0 then loadStructureFromVersions s0 np
      else structureFromModified
    let originalStructureToStore :=
      if structureFromModified.length = 0 ∧ structureToLoad.length > 0 ∧
          origFromSaved.isNone then
        some structureToLoad
      else origFromSaved
    let originalControlValuesToStore :=
      if structureFromModified.length = 0 ∧ structureToLoad.length > 0 ∧
          origCVFromSaved.isNone then
        match savedUIState with
        | some sv =>
          if sv.uiGlobalControlValues.length > 0 then some sv.uiGlobalControlValues
          else some (controlDefaultsOf defaultsOf structureToLoad)
        | none => some (controlDefaultsOf defaultsOf structureToLoad)
      else origCVFromSaved
    let normalizedStructure := ensureStructureDefaults structureToLoad
    let updatedUIState : UIPatch :=
      ⟨KP.put uiStateToLoad.starredControls, KP.put uiStateToLoad.starredTextBoxes,
        KP.put uiStateToLoad.uiGlobalControlValues,
        KP.put uiStateToLoad.uiCollapsedByElementId,
        KP.put uiStateToLoad.uiMiniEditorCollapsed,
        KP.keep,
        (match originalStructureToStore with
          | some o => KP.put (some o)
          | none => KP.keep),
        (match originalControlValuesToStore with
          | some o => KP.put (some o)
          | none =>
            if uiStateToLoad.uiGlobalControlValues.length > 0 then
              KP.put (some uiStateToLoad.uiGlobalControlValues)
            else KP.keep)⟩
    let s3 := setPromptUIState np.id updatedUIState s2
    { s3 with
      currentPrompt := some np
      structure_ := if normalizedStructure.length > 0 then normalizedStructure else []
      starredControls := uiStateToLoad.starredControls
      starredTextBoxes := uiStateToLoad.starredTextBoxes
      uiGlobalControlValues := uiStateToLoad.uiGlobalControlValues
      uiCollapsedByElementId := uiStateToLoad.uiCollapsedByElementId
      uiMiniEditorCollapsed := uiStateToLoad.uiMiniEditorCollapsed }

/-- `[...new Set(xs)]`: first occurrences in order. -/
def firstDedup : List String → List String
  | [] => []
  | x :: xs => x :: (firstDedup xs).filter (fun y => y ≠ x)

/-- One iteration of `cleanupOldAutoSaves`' per-prompt loop (lines
848–860): `s0` is the entry snapshot the auto-save list is computed from,
`acc` the accumulated state the deletions apply to. -/
def cleanupStep (s0 : EditorState) (acc : EditorState) (promptId : String) :
    EditorState :=
  let autoSaves := sortByCreatedAtDesc (s0.versions.filter
    (fun v => decide (v.promptId = promptId ∧ v.isAutoSave = some true)))
  if autoSaves.length > 1 then
    (autoSaves.drop 1).foldl (fun acc2 a => deleteVersion a.id acc2) acc
  else acc

/-- `cleanupOldAutoSaves()` (lines 844–861): per prompt id, keep only the
most recent auto-save; the lists are computed against the entry snapshot
while deletions accumulate. -/
def cleanupOldAutoSaves (s : EditorState) : EditorState :=
  (firstDedup (s.versions.map (fun v => v.promptId))).foldl (cleanupStep s) s

/-- `resetElementContent(elementId)` (lines 864–920). In the no-baseline
fallback, spreading the stored `uiState` reproduces its own field values,
so the patch re-puts them and adds `originalStructure`. -/
def resetElementContent (elementId : String) (s : EditorState) : EditorState :=
  match s.currentPrompt with
  | none => s
  | some cp =>
    let uiState := lookupR s.promptUIStates cp.id
    match uiState.bind (fun u => u.originalStructure) with
    | none =>
      match s.structure_.find? (fun el => el.id = elementId) with
      | some _ =>
        let patch : UIPatch :=
          match uiState with
          | none =>
            ⟨KP.keep, KP.keep, KP.keep, KP.keep, KP.keep, KP.keep,
              KP.put (some s.structure_), KP.keep⟩
          | some u =>
            ⟨KP.put u.starredControls, KP.put u.starredTextBoxes,
              KP.put u.uiGlobalControlValues, KP.put u.uiCollapsedByElementId,
              KP.put u.uiMiniEditorCollapsed, KP.put u.modifiedStructure,
              KP.put (some s.structure_), KP.put u.originalControlValues⟩
        setPromptUIState cp.id patch s
      | none => s
    | some originalStructure =>
      match originalStructure.find? (fun el => el.id = elementId) with
      | none => s
      | some originalElement =>
        let updatedStructure := s.structure_.map (fun el =>
          if el.id = elementId then { el with content := originalElement.content }
          else el)
        let currentUIState := (lookupR s.promptUIStates cp.id).getD emptyUIState
        { s with
          structure_ := updatedStructure
          promptUIStates := setR s.promptUIStates cp.id
            { currentUIState with modifiedStructure := some updatedStructure } }

/-! ## Operation traces over the store -/

inductive StoreOp where
  | save (now : Nat) (isAutoSave : Bool)
  | switchTo (now : Nat) (p : Option Prompt)
  | cleanup
  | edit (id : String) (content : String)
  | reset (id : String)
deriving DecidableEq, Repr

def stepOp (defaultsOf : String → List (String × JSVal)) (s : EditorState) :
    StoreOp → EditorState
  | StoreOp.save now isAuto => saveCurrentPrompt now isAuto s
  | StoreOp.switchTo now p => setCurrentPrompt defaultsOf now p s
  | StoreOp.cleanup => cleanupOldAutoSaves s
  | StoreOp.edit id c => updateStructuralElement id (contentPatch c) s
  | StoreOp.reset id => resetElementContent id s

def runOps (defaultsOf : String → List (String × JSVal)) (s : EditorState) :
    List StoreOp → EditorState
  | [] => s
  | op :: ops => runOps defaultsOf (stepOp defaultsOf s op) ops

def idsOf (s : EditorState) : List String :=
  s.versions.map (fun v => v.id)

/-- The id an operation would mint is not already taken (the real
`Date.now()` id scheme assumes this). -/
def opFresh (s : EditorState) : StoreOp → Bool
  | StoreOp.save now _ => !(idsOf s).contains (mkVerId now)
  | StoreOp.switchTo now _ => !(idsOf s).contains (mkVerId now)
  | _ => true

def freshRun (defaultsOf : String → List (String × JSVal)) (s : EditorState) :
    List StoreOp → Bool
  | [] => true
  | op :: ops => opFresh s op && freshRun defaultsOf (stepOp defaultsOf s op) ops

def autosavePred (pid : String) (v : Version) : Bool :=
  decide (v.promptId = pid ∧ v.isAutoSave = some true)

/-- Number of auto-save versions stored for a prompt. -/
def autosaveCount (pid : String) (s : EditorState) : Nat :=
  s.versions.countP (autosavePred pid)

/-- The operations named by the auto-save singleton claim. -/
def autoOpOK : StoreOp → Bool
  | StoreOp.save _ isAuto => isAuto
  | StoreOp.switchTo _ _ => true
  | StoreOp.cleanup => true
  | _ => false

/-- Whether an operation performs an auto-save for `pid` in state `s`. -/
def opDoesAutosave (pid : String) (s : EditorState) : StoreOp → Bool
  | StoreOp.save _ isAuto =>
    isAuto && (match s.currentPrompt with
      | some cp => decide (cp.id = pid)
      | none => false)
  | StoreOp.switchTo _ _ =>
    (match s.currentPrompt with
      | some cp => decide (cp.id = pid)
      | none => false) && decide (s.structure_.length > 0)
  | _ => false

def autosaveOccurred (defaultsOf : String → List (String × JSVal)) (pid : String)
    (s : EditorState) : List StoreOp → Bool
  | [] => false
  | op :: ops =>
    opDoesAutosave pid s op ||
      autosaveOccurred defaultsOf pid (stepOp defaultsOf s op) ops

/-! ## C5: manual saves -/

def c5elem : StructuralElement := ⟨"x", "X", true, "hello", some true, none⟩

def c5prompt : Prompt := ⟨"p", "P", [], "", [], 0⟩

def c5state : EditorState :=
  ⟨[c5elem], some c5prompt, [], [c5prompt], [], [], [], [], [], [], []⟩

/-- C5 evaluation at the failing input: two manual saves at times 1 and 2.
Both versions exist in the store with distinct ids, both are
`isAutoSave = false`, and `currentVersion` is the most recent — but the
prompt's `versions` list ends up as `[ver_2]` only: the first save's id
is dropped, because `saveCurrentPrompt` appends to the stale
`state.currentPrompt.versions` snapshot, which `updatePrompt` never
refreshes. -/
theorem manual_save_versions_list_bug :
    ((saveCurrentPrompt 2 false (saveCurrentPrompt 1 false c5state)).versions.map
      (fun v => v.id)) = [mkVerId 1, mkVerId 2] ∧
    (∀ v ∈ (saveCurrentPrompt 2 false (saveCurrentPrompt 1 false c5state)).versions,
      v.isAutoSave = some false) ∧
    ((saveCurrentPrompt 2 false (saveCurrentPrompt 1 false c5state)).prompts.map
      (fun p => p.versions)) = [[mkVerId 2]] ∧
    ((saveCurrentPrompt 2 false (saveCurrentPrompt 1 false c5state)).prompts.map
      (fun p => p.currentVersion)) = [mkVerId 2] ∧
    mkVerId 1 ≠ mkVerId 2 := by
  refine ⟨by decide, by decide, by decide, by decide, by decide⟩

/-! ## C10: deletePrompt frame -/

theorem lookupR_eraseR_same {α : Type} (m : List (String × α)) (k : String) :
    lookupR (eraseR m k) k = none := by
  induction m with
  | nil => rfl
  | cons kv rest ih =>
    unfold eraseR at ih ⊢
    by_cases h : kv.1 = k
    · rw [List.filter_cons_of_neg (by simpa using h)]
      exact ih
    · rw [List.filter_cons_of_pos (by simpa using h)]
      unfold lookupR
      rw [List.find?_cons_of_neg _ (by simpa using h)]
      exact ih

theorem lookupR_eraseR_other {α : Type} (m : List (String × α)) {k k' : String}
    (h : k' ≠ k) : lookupR (eraseR m k) k' = lookupR m k' := by
  induction m with
  | nil => rfl
  | cons kv rest ih =>
    unfold eraseR at ih ⊢
    by_cases hk : kv.1 = k
    · rw [List.filter_cons_of_neg (by simpa using hk)]
      unfold lookupR
      rw [List.find?_cons_of_neg _ (by simp only [decide_eq_true_eq]; exact fun hc => h (hc ▸ hk))]
      exact ih
    · rw [List.filter_cons_of_pos (by simpa using hk)]
      by_cases hk' : kv.1 = k'
      · unfold lookupR
        rw [List.find?_cons_of_pos _ (by simpa using hk'),
          List.find?_cons_of_pos _ (by simpa using hk')]
      · unfold lookupR
        rw [List.find?_cons_of_neg _ (by simpa using hk'),
          List.find?_cons_of_neg _ (by simpa using hk')]
        exact ih

/-- C10: `deletePrompt(id)` removes exactly the prompt with that id, every
version whose `promptId` is that id, and that prompt's UI-state entry,
leaving projects, all other prompts, versions and UI states, the live
structure and the remaining state unchanged. -/
theorem deletePrompt_frame (s : EditorState) (id : String) :
    (∀ p, p ∈ (deletePrompt id s).prompts ↔ p ∈ s.prompts ∧ p.id ≠ id) ∧
    (∀ v, v ∈ (deletePrompt id s).versions ↔ v ∈ s.versions ∧ v.promptId ≠ id) ∧
    lookupR (deletePrompt id s).promptUIStates id = none ∧
    (∀ k, k ≠ id →
      lookupR (deletePrompt id s).promptUIStates k = lookupR s.promptUIStates k) ∧
    (deletePrompt id s).projects = s.projects ∧
    (deletePrompt id s).structure_ = s.structure_ ∧
    (deletePrompt id s).currentPrompt = s.currentPrompt ∧
    (deletePrompt id s).uiGlobalControlValues = s.uiGlobalControlValues ∧
    (deletePrompt id s).uiCollapsedByElementId = s.uiCollapsedByElementId ∧
    (deletePrompt id s).uiMiniEditorCollapsed = s.uiMiniEditorCollapsed ∧
    (deletePrompt id s).starredControls = s.starredControls ∧
    (deletePrompt id s).starredTextBoxes = s.starredTextBoxes := by
  refine ⟨?_, ?_, lookupR_eraseR_same s.promptUIStates id,
    fun k hk => lookupR_eraseR_other s.promptUIStates hk,
    rfl, rfl, rfl, rfl, rfl, rfl, rfl, rfl⟩
  · intro p
    show p ∈ s.prompts.filter (fun p => p.id ≠ id) ↔ _
    rw [List.mem_filter]
    simp
  · intro v
    show v ∈ s.versions.filter (fun v => v.promptId ≠ id) ↔ _
    rw [List.mem_filter]
    simp

def w10prompt : Prompt := ⟨"p", "P", [], "", [], 0⟩

def w10prompt2 : Prompt := ⟨"q", "Q", [], "", [], 0⟩

def w10ver : Version := ⟨"vq", "q", 1, [], some false⟩

def w10state : EditorState :=
  ⟨[], none, [], [w10prompt, w10prompt2], [⟨"vp", "p", 1, [], some false⟩, w10ver],
    [("p", emptyUIState), ("q", emptyUIState)], [], [], [], [], []⟩

/-- C10 witness: deleting prompt `p` erases its UI entry, keeps `q`'s, and
keeps `q`'s version. -/
theorem deletePrompt_frame_witness :
    lookupR (deletePrompt ("p") w10state).promptUIStates ("p") = none ∧
    lookupR (deletePrompt ("p") w10state).promptUIStates ("q") =
      lookupR w10state.promptUIStates ("q") ∧
    (w10ver ∈ (deletePrompt ("p") w10state).versions ↔
      w10ver ∈ w10state.versions ∧ w10ver.promptId ≠ ("p")) := by
  refine ⟨(deletePrompt_frame w10state ("p")).2.2.1, ?_, ?_⟩
  · exact (deletePrompt_frame w10state ("p")).2.2.2.1 ("q") (by decide)
  · exact (deletePrompt_frame w10state ("p")).2.1 w10ver

/-! ## Baseline (original structure) facts -/

/-- The stored baseline of a prompt. -/
def baselineOf (s : EditorState) (pid : String) :
    Option (List StructuralElement) :=
  (lookupR s.promptUIStates pid).bind (fun u => u.originalStructure)

/-- A sequence of `updateStructuralElement` content edits. -/
def applyContentEdits (s : EditorState) (edits : List (String × String)) :
    EditorState :=
  edits.foldl (fun st ec => updateStructuralElement ec.1 (contentPatch ec.2) st) s

theorem lookupR_setR_same {α : Type} (m : List (String × α)) (k : String) (v : α) :
    lookupR (setR m k v) k = some v := by
  induction m with
  | nil =>
    show lookupR [(k, v)] k = some v
    unfold lookupR
    rw [List.find?_cons_of_pos _ (by simp)]
    rfl
  | cons kv rest ih =>
    unfold setR
    by_cases h : kv.1 = k
    · rw [if_pos h]
      unfold lookupR
      rw [List.find?_cons_of_pos _ (by simp)]
      rfl
    · rw [if_neg h]
      unfold lookupR
      rw [List.find?_cons_of_neg _ (by simpa using h)]
      exact ih

theorem lookupR_setR_other {α : Type} (m : List (String × α)) {k k' : String}
    (v : α) (h : k' ≠ k) : lookupR (setR m k v) k' = lookupR m k' := by
  induction m with
  | nil =>
    show lookupR [(k, v)] k' = none
    unfold lookupR
    rw [List.find?_cons_of_neg _ (by simpa using fun hc => h hc.symm)]
    rfl
  | cons kv rest ih =>
    unfold setR
    by_cases hk : kv.1 = k
    · rw [if_pos hk]
      unfold lookupR
      rw [List.find?_cons_of_neg _ (by simpa using fun hc => h hc.symm),
        List.find?_cons_of_neg _ (by
          simp only [decide_eq_true_eq]
          exact fun hc => h (hc.symm.trans hk))]
    · rw [if_neg hk]
      by_cases hk' : kv.1 = k'
      · unfold lookupR
        rw [List.find?_cons_of_pos _ (by simpa using hk'),
          List.find?_cons_of_pos _ (by simpa using hk')]
      · unfold lookupR
        rw [List.find?_cons_of_neg _ (by simpa using hk'),
          List.find?_cons_of_neg _ (by simpa using hk')]
        exact ih

theorem autoSaveStep_promptUIStates (now : Nat) (cp : Prompt)
    (sts : Option (List StructuralElement)) (ev : List Version)
    (s1 : EditorState) :
    (autoSaveStep now cp sts ev s1).promptUIStates = s1.promptUIStates := by
  unfold autoSaveStep
  split
  · split
    · split <;> rfl
    · rfl
  · rfl

theorem baselineOf_setPromptUIState_same (k : String) (p : UIPatch)
    (s : EditorState) :
    baselineOf (setPromptUIState k p s) k =
      p.originalStructure.apply
        (((lookupR s.promptUIStates k).getD emptyUIState).originalStructure) := by
  unfold baselineOf setPromptUIState
  show (lookupR (setR s.promptUIStates k _) k).bind _ = _
  rw [lookupR_setR_same]
  rfl

theorem baselineOf_setPromptUIState_other (k : String) (p : UIPatch)
    (s : EditorState) {pid : String} (h : pid ≠ k) :
    baselineOf (setPromptUIState k p s) pid = baselineOf s pid := by
  unfold baselineOf setPromptUIState
  show (lookupR (setR s.promptUIStates k _) pid).bind _ = _
  rw [lookupR_setR_other _ _ h]

theorem baselineOf_some_elim {s : EditorState} {pid : String}
    {o : List StructuralElement} (h : baselineOf s pid = some o) :
    ∃ u, lookupR s.promptUIStates pid = some u ∧ u.originalStructure = some o := by
  unfold baselineOf at h
  cases hl : lookupR s.promptUIStates pid with
  | none => rw [hl] at h; cases h
  | some u => rw [hl] at h; exact ⟨u, rfl, h⟩

theorem flushPhase_baseline {now : Nat} {s : EditorState} {pid : String}
    {o : List StructuralElement} (h : baselineOf s pid = some o) :
    baselineOf (flushPhase now s) pid = some o := by
  unfold flushPhase
  cases hcp : s.currentPrompt with
  | none => exact h
  | some cp =>
    have hbl : baselineOf (autoSaveStep now cp
          (if s.structure_.length > 0 then some s.structure_ else none) s.versions
          (setPromptUIState cp.id (flushPatchOf s cp) s)) pid =
        baselineOf (setPromptUIState cp.id (flushPatchOf s cp) s) pid := by
      unfold baselineOf
      rw [autoSaveStep_promptUIStates]
    rw [hbl]
    by_cases hpid : pid = cp.id
    · subst hpid
      rw [baselineOf_setPromptUIState_same]
      have hb : (lookupR s.promptUIStates cp.id).bind
          (fun u => u.originalStructure) = some o := h
      unfold flushPatchOf
      rw [hb]
      rfl
    · rw [baselineOf_setPromptUIState_other _ _ _ hpid]
      exact h

theorem saveCurrentPrompt_promptUIStates (now : Nat) (b : Bool) (s : EditorState) :
    (saveCurrentPrompt now b s).promptUIStates = s.promptUIStates := by
  unfold saveCurrentPrompt
  split
  · rfl
  · dsimp only []
    split
    · split <;> rfl
    · rfl

theorem deleteFold_promptUIStates (del : List Version) :
    ∀ acc : EditorState,
      (del.foldl (fun a v => deleteVersion v.id a) acc).promptUIStates =
        acc.promptUIStates := by
  induction del with
  | nil => intro acc; rfl
  | cons d t ih =>
    intro acc
    rw [List.foldl_cons, ih]
    rfl

theorem cleanupStep_promptUIStates (s0 acc : EditorState) (promptId : String) :
    (cleanupStep s0 acc promptId).promptUIStates = acc.promptUIStates := by
  unfold cleanupStep
  dsimp only []
  split
  · rw [deleteFold_promptUIStates]
  · rfl

theorem cleanup_promptUIStates (s : EditorState) :
    (cleanupOldAutoSaves s).promptUIStates = s.promptUIStates := by
  unfold cleanupOldAutoSaves
  generalize firstDedup (s.versions.map (fun v => v.promptId)) = pids
  have haux : ∀ (l : List String) (acc : EditorState),
      (l.foldl (cleanupStep s) acc).promptUIStates = acc.promptUIStates := by
    intro l
    induction l with
    | nil => intro acc; rfl
    | cons x xs ih =>
      intro acc
      rw [List.foldl_cons, ih, cleanupStep_promptUIStates]
  exact haux pids s

theorem updateStructuralElement_baseline {id : String} {patch : ElementPatch}
    {s : EditorState} {pid : String} {o : List StructuralElement}
    (h : baselineOf s pid = some o) :
    baselineOf (updateStructuralElement id patch s) pid = some o := by
  unfold updateStructuralElement
  cases hcp : s.currentPrompt with
  | none => exact h
  | some cp =>
    by_cases hpid : pid = cp.id
    · subst hpid
      unfold baselineOf
      show (lookupR (setR s.promptUIStates cp.id _) cp.id).bind _ = _
      rw [lookupR_setR_same]
      obtain ⟨u, hu, huo⟩ := baselineOf_some_elim h
      show ((lookupR s.promptUIStates cp.id).getD emptyUIState).originalStructure = some o
      rw [hu]
      exact huo
    · unfold baselineOf
      show (lookupR (setR s.promptUIStates cp.id _) pid).bind _ = _
      rw [lookupR_setR_other _ _ hpid]
      exact h

theorem optCases {α : Type} (o : Option α) : o = none ∨ ∃ x, o = some x := by
  cases o with
  | none => exact Or.inl rfl
  | some x => exact Or.inr ⟨x, rfl⟩

theorem resetElementContent_baseline {eid : String} {s : EditorState}
    {pid : String} {o : List StructuralElement} (h : baselineOf s pid = some o) :
    baselineOf (resetElementContent eid s) pid = some o := by
  unfold resetElementContent
  rcases optCases s.currentPrompt with hcp | ⟨cp, hcp⟩
  · rw [hcp]; exact h
  · rw [hcp]
    dsimp only []
    rcases optCases ((lookupR s.promptUIStates cp.id).bind
        (fun u => u.originalStructure)) with horig | ⟨os, horig⟩
    · rw [horig]
      dsimp only []
      rcases optCases (s.structure_.find? (fun el => el.id = eid)) with
        hfind | ⟨el, hfind⟩
      · rw [hfind]; exact h
      · rw [hfind]
        dsimp only []
        by_cases hpid : pid = cp.id
        · subst hpid
          have hcon : (some o : Option (List StructuralElement)) = none := by
            rw [← h]; exact horig
          cases hcon
        · rw [baselineOf_setPromptUIState_other _ _ _ hpid]
          exact h
    · rw [horig]
      dsimp only []
      rcases optCases (os.find? (fun el => el.id = eid)) with hfind | ⟨oel, hfind⟩
      · rw [hfind]; exact h
      · rw [hfind]
        dsimp only []
        by_cases hpid : pid = cp.id
        · subst hpid
          unfold baselineOf
          show (lookupR (setR s.promptUIStates cp.id _) cp.id).bind _ = _
          rw [lookupR_setR_same]
          obtain ⟨u, hu, huo⟩ := baselineOf_some_elim h
          show ((lookupR s.promptUIStates cp.id).getD emptyUIState).originalStructure = some o
          rw [hu]
          exact huo
        · unfold baselineOf
          show (lookupR (setR s.promptUIStates cp.id _) pid).bind _ = _
          rw [lookupR_setR_other _ _ hpid]
          exact h

theorem setCurrentPrompt_baseline {defaultsOf : String → List (String × JSVal)}
    {now : Nat} {p : Option Prompt} {s : EditorState} {pid : String}
    {o : List StructuralElement} (h : baselineOf s pid = some o) :
    baselineOf (setCurrentPrompt defaultsOf now p s) pid = some o := by
  have h2 : baselineOf (flushPhase now s) pid = some o := flushPhase_baseline h
  unfold setCurrentPrompt
  cases p with
  | none => exact h2
  | some np =>
    by_cases hpid : pid = np.id
    · subst hpid
      obtain ⟨u, hu, huo⟩ := baselineOf_some_elim h
      unfold baselineOf
      show (lookupR (setR (flushPhase now s).promptUIStates np.id _) np.id).bind _ = _
      rw [lookupR_setR_same]
      simp only [hu, huo, Option.getD_some, Option.isNone_some]
      rw [if_neg (by rintro ⟨_, _, h3⟩; cases h3)]
      rfl
    · unfold baselineOf
      show (lookupR (setR (flushPhase now s).promptUIStates np.id _) pid).bind _ = _
      rw [lookupR_setR_other _ _ hpid]
      exact h2

theorem stepOp_baseline {defaultsOf : String → List (String × JSVal)}
    {s : EditorState} {pid : String} {o : List StructuralElement}
    (op : StoreOp) (h : baselineOf s pid = some o) :
    baselineOf (stepOp defaultsOf s op) pid = some o := by
  cases op with
  | save now b =>
    show baselineOf (saveCurrentPrompt now b s) pid = some o
    unfold baselineOf
    rw [saveCurrentPrompt_promptUIStates]
    exact h
  | switchTo now p => exact setCurrentPrompt_baseline h
  | cleanup =>
    show baselineOf (cleanupOldAutoSaves s) pid = some o
    unfold baselineOf
    rw [cleanup_promptUIStates]
    exact h
  | edit id c => exact updateStructuralElement_baseline h
  | reset id => exact resetElementContent_baseline h

theorem runOps_baseline {defaultsOf : String → List (String × JSVal)}
    (ops : List StoreOp) :
    ∀ {s : EditorState} {pid : String} {o : List StructuralElement},
      baselineOf s pid = some o →
      baselineOf (runOps defaultsOf s ops) pid = some o := by
  induction ops with
  | nil => intro s pid o h; exact h
  | cons op rest ih =>
    intro s pid o h
    exact ih (stepOp_baseline op h)

theorem updateStructuralElement_currentPrompt (id : String) (pa : ElementPatch)
    (s : EditorState) :
    (updateStructuralElement id pa s).currentPrompt = s.currentPrompt := rfl

theorem applyContentEdits_currentPrompt (edits : List (String × String)) :
    ∀ s : EditorState, (applyContentEdits s edits).currentPrompt = s.currentPrompt := by
  induction edits with
  | nil => intro s; rfl
  | cons ec rest ih =>
    intro s
    show (applyContentEdits (updateStructuralElement ec.1 (contentPatch ec.2) s) rest).currentPrompt = _
    rw [ih, updateStructuralElement_currentPrompt]

theorem applyContentEdits_baseline (edits : List (String × String)) :
    ∀ {s : EditorState} {pid : String} {o : List StructuralElement},
      baselineOf s pid = some o →
      baselineOf (applyContentEdits s edits) pid = some o := by
  induction edits with
  | nil => intro s pid o h; exact h
  | cons ec rest ih =>
    intro s pid o h
    exact ih (updateStructuralElement_baseline h)

theorem flushPhase_lookup_other {now : Nat} {s : EditorState} {pid : String}
    (hcur : ∀ q, s.currentPrompt = some q → q.id ≠ pid) :
    lookupR (flushPhase now s).promptUIStates pid = lookupR s.promptUIStates pid := by
  unfold flushPhase
  rcases optCases s.currentPrompt with hcp | ⟨cp, hcp⟩
  · rw [hcp]
  · rw [hcp]
    rw [autoSaveStep_promptUIStates]
    show lookupR (setR s.promptUIStates cp.id _) pid = _
    rw [lookupR_setR_other _ _ (fun he => hcur cp hcp he.symm)]

/-- The stored control-value baseline of a prompt. -/
def baselineCVOf (s : EditorState) (pid : String) :
    Option (List (String × JSVal)) :=
  (lookupR s.promptUIStates pid).bind (fun u => u.originalControlValues)

theorem baselineCVOf_setPromptUIState_same (k : String) (p : UIPatch)
    (s : EditorState) :
    baselineCVOf (setPromptUIState k p s) k =
      p.originalControlValues.apply
        (((lookupR s.promptUIStates k).getD emptyUIState).originalControlValues) := by
  unfold baselineCVOf setPromptUIState
  show (lookupR (setR s.promptUIStates k _) k).bind _ = _
  rw [lookupR_setR_same]
  rfl

theorem baselineCVOf_setPromptUIState_other (k : String) (p : UIPatch)
    (s : EditorState) {pid : String} (h : pid ≠ k) :
    baselineCVOf (setPromptUIState k p s) pid = baselineCVOf s pid := by
  unfold baselineCVOf setPromptUIState
  show (lookupR (setR s.promptUIStates k _) pid).bind _ = _
  rw [lookupR_setR_other _ _ h]

theorem baselineCVOf_some_elim {s : EditorState} {pid : String}
    {o : List (String × JSVal)} (h : baselineCVOf s pid = some o) :
    ∃ u, lookupR s.promptUIStates pid = some u ∧
      u.originalControlValues = some o := by
  unfold baselineCVOf at h
  cases hl : lookupR s.promptUIStates pid with
  | none => rw [hl] at h; cases h
  | some u => rw [hl] at h; exact ⟨u, rfl, h⟩

theorem flushPhase_baselineCV {now : Nat} {s : EditorState} {pid : String}
    {o : List (String × JSVal)} (h : baselineCVOf s pid = some o) :
    baselineCVOf (flushPhase now s) pid = some o := by
  unfold flushPhase
  cases hcp : s.currentPrompt with
  | none => exact h
  | some cp =>
    have hbl : baselineCVOf (autoSaveStep now cp
          (if s.structure_.length > 0 then some s.structure_ else none) s.versions
          (setPromptUIState cp.id (flushPatchOf s cp) s)) pid =
        baselineCVOf (setPromptUIState cp.id (flushPatchOf s cp) s) pid := by
      unfold baselineCVOf
      rw [autoSaveStep_promptUIStates]
    rw [hbl]
    by_cases hpid : pid = cp.id
    · subst hpid
      rw [baselineCVOf_setPromptUIState_same]
      have hb : (lookupR s.promptUIStates cp.id).bind
          (fun u => u.originalControlValues) = some o := h
      unfold flushPatchOf
      rw [hb]
      rfl
    · rw [baselineCVOf_setPromptUIState_other _ _ _ hpid]
      exact h

theorem updateStructuralElement_baselineCV {id : String} {patch : ElementPatch}
    {s : EditorState} {pid : String} {o : List (String × JSVal)}
    (h : baselineCVOf s pid = some o) :
    baselineCVOf (updateStructuralElement id patch s) pid = some o := by
  unfold updateStructuralElement
  cases hcp : s.currentPrompt with
  | none => exact h
  | some cp =>
    by_cases hpid : pid = cp.id
    · subst hpid
      unfold baselineCVOf
      show (lookupR (setR s.promptUIStates cp.id _) cp.id).bind _ = _
      rw [lookupR_setR_same]
      obtain ⟨u, hu, huo⟩ := baselineCVOf_some_elim h
      show ((lookupR s.promptUIStates cp.id).getD
        emptyUIState).originalControlValues = some o
      rw [hu]
      exact huo
    · unfold baselineCVOf
      show (lookupR (setR s.promptUIStates cp.id _) pid).bind _ = _
      rw [lookupR_setR_other _ _ hpid]
      exact h

theorem resetElementContent_baselineCV {eid : String} {s : EditorState}
    {pid : String} {o : List (String × JSVal)} (h : baselineCVOf s pid = some o) :
    baselineCVOf (resetElementContent eid s) pid = some o := by
  unfold resetElementContent
  rcases optCases s.currentPrompt with hcp | ⟨cp, hcp⟩
  · rw [hcp]; exact h
  · rw [hcp]
    dsimp only []
    rcases optCases ((lookupR s.promptUIStates cp.id).bind
        (fun u => u.originalStructure)) with horig | ⟨os, horig⟩
    · rw [horig]
      dsimp only []
      rcases optCases (s.structure_.find? (fun el => el.id = eid)) with
        hfind | ⟨el, hfind⟩
      · rw [hfind]; exact h
      · rw [hfind]
        dsimp only []
        by_cases hpid : pid = cp.id
        · subst hpid
          obtain ⟨u, hu, huo⟩ := baselineCVOf_some_elim h
          rw [hu]
          dsimp only []
          rw [baselineCVOf_setPromptUIState_same]
          exact huo
        · rw [baselineCVOf_setPromptUIState_other _ _ _ hpid]
          exact h
    · rw [horig]
      dsimp only []
      rcases optCases (os.find? (fun el => el.id = eid)) with hfind | ⟨oel, hfind⟩
      · rw [hfind]; exact h
      · rw [hfind]
        dsimp only []
        by_cases hpid : pid = cp.id
        · subst hpid
          unfold baselineCVOf
          show (lookupR (setR s.promptUIStates cp.id _) cp.id).bind _ = _
          rw [lookupR_setR_same]
          obtain ⟨u, hu, huo⟩ := baselineCVOf_some_elim h
          show ((lookupR s.promptUIStates cp.id).getD
            emptyUIState).originalControlValues = some o
          rw [hu]
          exact huo
        · unfold baselineCVOf
          show (lookupR (setR s.promptUIStates cp.id _) pid).bind _ = _
          rw [lookupR_setR_other _ _ hpid]
          exact h

theorem setCurrentPrompt_baselineCV {defaultsOf : String → List (String × JSVal)}
    {now : Nat} {p : Option Prompt} {s : EditorState} {pid : String}
    {o : List (String × JSVal)} (h : baselineCVOf s pid = some o) :
    baselineCVOf (setCurrentPrompt defaultsOf now p s) pid = some o := by
  have h2 : baselineCVOf (flushPhase now s) pid = some o := flushPhase_baselineCV h
  unfold setCurrentPrompt
  cases p with
  | none => exact h2
  | some np =>
    by_cases hpid : pid = np.id
    · subst hpid
      obtain ⟨u, hu, huo⟩ := baselineCVOf_some_elim h
      unfold baselineCVOf
      show (lookupR (setR (flushPhase now s).promptUIStates np.id _) np.id).bind _ = _
      rw [lookupR_setR_same]
      simp only [hu, huo, Option.some_bind, Option.getD_some, Option.isNone_some,
        Bool.false_eq_true, and_false, if_false]
      rfl
    · unfold baselineCVOf
      show (lookupR (setR (flushPhase now s).promptUIStates np.id _) pid).bind _ = _
      rw [lookupR_setR_other _ _ hpid]
      exact h2

theorem stepOp_baselineCV {defaultsOf : String → List (String × JSVal)}
    {s : EditorState} {pid : String} {o : List (String × JSVal)}
    (op : StoreOp) (h : baselineCVOf s pid = some o) :
    baselineCVOf (stepOp defaultsOf s op) pid = some o := by
  cases op with
  | save now b =>
    show baselineCVOf (saveCurrentPrompt now b s) pid = some o
    unfold baselineCVOf
    rw [saveCurrentPrompt_promptUIStates]
    exact h
  | switchTo now p => exact setCurrentPrompt_baselineCV h
  | cleanup =>
    show baselineCVOf (cleanupOldAutoSaves s) pid = some o
    unfold baselineCVOf
    rw [cleanup_promptUIStates]
    exact h
  | edit id c => exact updateStructuralElement_baselineCV h
  | reset id => exact resetElementContent_baselineCV h

theorem runOps_baselineCV {defaultsOf : String → List (String × JSVal)}
    (ops : List StoreOp) :
    ∀ {s : EditorState} {pid : String} {o : List (String × JSVal)},
      baselineCVOf s pid = some o →
      baselineCVOf (runOps defaultsOf s ops) pid = some o := by
  induction ops with
  | nil => intro s pid o h; exact h
  | cons op rest ih =>
    intro s pid o h
    exact ih (stepOp_baselineCV op h)

/-- C2: a prompt opened for the first time (no stored UI state) captures
the loaded structure as `originalStructure` and the derived control
defaults as `originalControlValues`; both baselines survive any sequence
of store operations; and after any sequence of content edits followed by
`resetElementContent`, the element's content is the content captured at
first load, not any intermediate edit. -/
theorem baseline_reset_correct (defaultsOf : String → List (String × JSVal))
    (s0 : EditorState) (p : Prompt) (now : Nat)
    (hnew : lookupR s0.promptUIStates p.id = none)
    (hload : loadStructureFromVersions s0 p ≠ []) :
    baselineOf (setCurrentPrompt defaultsOf now (some p) s0) p.id =
      some (loadStructureFromVersions s0 p) ∧
    baselineCVOf (setCurrentPrompt defaultsOf now (some p) s0) p.id =
      some (controlDefaultsOf defaultsOf (loadStructureFromVersions s0 p)) ∧
    (setCurrentPrompt defaultsOf now (some p) s0).structure_ =
      ensureStructureDefaults (loadStructureFromVersions s0 p) ∧
    (∀ ops : List StoreOp,
      baselineOf (runOps defaultsOf (setCurrentPrompt defaultsOf now (some p) s0) ops)
        p.id = some (loadStructureFromVersions s0 p)) ∧
    (∀ ops : List StoreOp,
      baselineCVOf (runOps defaultsOf (setCurrentPrompt defaultsOf now (some p) s0) ops)
        p.id = some (controlDefaultsOf defaultsOf (loadStructureFromVersions s0 p))) ∧
    (∀ (edits : List (String × String)) (e : String) (origEl : StructuralElement),
      (loadStructureFromVersions s0 p).find? (fun el => el.id = e) = some origEl →
      ∀ x ∈ (resetElementContent e (applyContentEdits
          (setCurrentPrompt defaultsOf now (some p) s0) edits)).structure_,
        x.id = e → x.content = origEl.content) := by
  have hlenL : (loadStructureFromVersions s0 p).length > 0 := List.length_pos.mpr hload
  have hinner : (if (List.length ([] : List StructuralElement)) = 0
      then loadStructureFromVersions s0 p else []) = loadStructureFromVersions s0 p :=
    if_pos rfl
  have hF1 : baselineOf (setCurrentPrompt defaultsOf now (some p) s0) p.id =
      some (loadStructureFromVersions s0 p) := by
    unfold setCurrentPrompt
    dsimp only []
    rw [hnew]
    dsimp only []
    unfold baselineOf setPromptUIState
    dsimp only []
    rw [hinner]
    rw [if_pos (show List.length ([] : List StructuralElement) = 0 ∧
        (loadStructureFromVersions s0 p).length > 0 ∧
        (none : Option (List StructuralElement)).isNone = true from
      ⟨rfl, hlenL, rfl⟩)]
    show (lookupR (setR (flushPhase now s0).promptUIStates p.id _) p.id).bind _ = _
    rw [lookupR_setR_same]
    rfl
  have hF2 : (setCurrentPrompt defaultsOf now (some p) s0).structure_ =
      ensureStructureDefaults (loadStructureFromVersions s0 p) := by
    unfold setCurrentPrompt
    dsimp only []
    rw [hnew]
    dsimp only []
    rw [hinner]
    rw [if_pos (show (ensureStructureDefaults (loadStructureFromVersions s0 p)).length > 0 from by
      unfold ensureStructureDefaults
      rw [List.length_map]
      exact hlenL)]
  have hF1CV : baselineCVOf (setCurrentPrompt defaultsOf now (some p) s0) p.id =
      some (controlDefaultsOf defaultsOf (loadStructureFromVersions s0 p)) := by
    unfold setCurrentPrompt
    dsimp only []
    rw [hnew]
    dsimp only []
    unfold baselineCVOf setPromptUIState
    dsimp only []
    rw [hinner]
    rw [if_pos (show List.length ([] : List StructuralElement) = 0 ∧
        (loadStructureFromVersions s0 p).length > 0 ∧
        (Option.bind (none : Option PromptUIState)
          (fun sv => sv.originalControlValues)).isNone = true from
      ⟨rfl, hlenL, rfl⟩)]
    show (lookupR (setR (flushPhase now s0).promptUIStates p.id _) p.id).bind _ = _
    rw [lookupR_setR_same]
    rfl
  have hF3 : (setCurrentPrompt defaultsOf now (some p) s0).currentPrompt = some p := by
    unfold setCurrentPrompt
    dsimp only []
  refine ⟨hF1, hF1CV, hF2, fun ops => runOps_baseline ops hF1,
    fun ops => runOps_baselineCV ops hF1CV, ?_⟩
  intro edits e origEl hfind x hx hxid
  set s1 := setCurrentPrompt defaultsOf now (some p) s0 with hs1
  set s2 := applyContentEdits s1 edits with hs2
  have hb2 : baselineOf s2 p.id = some (loadStructureFromVersions s0 p) :=
    applyContentEdits_baseline edits hF1
  have hc2 : s2.currentPrompt = some p := by
    rw [hs2, applyContentEdits_currentPrompt]
    exact hF3
  have hb2' : (lookupR s2.promptUIStates p.id).bind (fun u => u.originalStructure) =
      some (loadStructureFromVersions s0 p) := hb2
  rw [show resetElementContent e s2 = _ from rfl] at hx
  unfold resetElementContent at hx
  rw [hc2] at hx
  dsimp only [] at hx
  rw [hb2'] at hx
  dsimp only [] at hx
  rw [hfind] at hx
  dsimp only [] at hx
  rcases List.mem_map.mp hx with ⟨el, helm, hel⟩
  by_cases hide : el.id = e
  · rw [← hel, if_pos hide]
  · rw [← hel, if_neg hide]
    rw [← hel, if_neg hide] at hxid
    exact absurd hxid hide

/-! ## C1: the auto-save singleton invariant -/

/-- Versions with pairwise distinct ids are determined by their id. -/
theorem nodup_ids_inj {l : List Version}
    (h : (l.map (fun v => v.id)).Nodup) {v w : Version}
    (hv : v ∈ l) (hw : w ∈ l) (hid : v.id = w.id) : v = w :=
  List.inj_on_of_nodup_map h hv hw hid

/-- Appending a fresh element keeps a list duplicate-free. -/
theorem nodup_snoc {α : Type} {l : List α} {a : α} (h : l.Nodup) (ha : a ∉ l) :
    (l ++ [a]).Nodup := by
  rw [List.nodup_append]
  exact ⟨h, List.nodup_singleton a, by simpa using ha⟩

/-- A version patch that touches neither `promptId` nor `isAutoSave`
preserves the auto-save predicate. -/
theorem autosavePred_patch (pid : String) (v : Version) (u : VersionPatch)
    (hp : u.promptId = none) (ha : u.isAutoSave = none) :
    autosavePred pid (applyVersionPatch v u) = autosavePred pid v := by
  show decide (Option.getD u.promptId v.promptId = pid ∧
      Option.getD u.isAutoSave v.isAutoSave = some true) = autosavePred pid v
  rw [hp, ha]
  rfl

/-- An in-place update with an id-preserving patch keeps the id list. -/
theorem update_map_ids (tid : String) (u : VersionPatch) (hid : u.id = none)
    (l : List Version) :
    (l.map (fun v => if v.id = tid then applyVersionPatch v u else v)).map
        (fun v => v.id) = l.map (fun v => v.id) := by
  induction l with
  | nil => rfl
  | cons v t ih =>
    dsimp only [List.map]
    congr 1
    · by_cases hv : v.id = tid
      · rw [if_pos hv]
        show Option.getD u.id v.id = v.id
        rw [hid]
        rfl
      · rw [if_neg hv]

/-- An in-place update that touches neither `promptId` nor `isAutoSave`
keeps the auto-save count. -/
theorem update_countP (pid tid : String) (u : VersionPatch)
    (hp : u.promptId = none) (ha : u.isAutoSave = none) (l : List Version) :
    (l.map (fun v => if v.id = tid then applyVersionPatch v u else v)).countP
        (autosavePred pid) = l.countP (autosavePred pid) := by
  induction l with
  | nil => rfl
  | cons v t ih =>
    dsimp only [List.map]
    rw [List.countP_cons, List.countP_cons, ih]
    congr 1
    by_cases hv : v.id = tid
    · rw [if_pos hv, autosavePred_patch pid v u hp ha]
    · rw [if_neg hv]

/-- `updateVersion` with an id/promptId/isAutoSave-preserving patch keeps
both the id list and every auto-save count. -/
theorem updateVersion_keeps (pid tid : String) (u : VersionPatch)
    (hid : u.id = none) (hp : u.promptId = none) (ha : u.isAutoSave = none)
    (s : EditorState) :
    idsOf (updateVersion tid u s) = idsOf s ∧
    autosaveCount pid (updateVersion tid u s) = autosaveCount pid s :=
  ⟨update_map_ids tid u hid s.versions, update_countP pid tid u hp ha s.versions⟩

theorem addVersion_ids (v : Version) (s : EditorState) :
    idsOf (addVersion v s) = idsOf s ++ [v.id] := by
  simp [idsOf, addVersion]

theorem addVersion_count (pid : String) (v : Version) (s : EditorState) :
    autosaveCount pid (addVersion v s) =
      autosaveCount pid s + (if autosavePred pid v = true then 1 else 0) := by
  show (s.versions ++ [v]).countP (autosavePred pid) = _
  simp [autosaveCount, List.countP_append, List.countP_cons]

/-- A failed auto-save lookup means the auto-save count is zero. -/
theorem findAuto_none_count (pid : String) (s : EditorState)
    (h : s.versions.find?
      (fun v => decide (v.promptId = pid ∧ v.isAutoSave = some true)) = none) :
    autosaveCount pid s = 0 := by
  show s.versions.countP (autosavePred pid) = 0
  rw [List.countP_eq_zero]
  intro v hv
  exact List.find?_eq_none.mp h v hv

/-- A successful auto-save lookup means the auto-save count is positive. -/
theorem findAuto_some_pos (pid : String) (s : EditorState) (ex : Version)
    (h : s.versions.find?
      (fun v => decide (v.promptId = pid ∧ v.isAutoSave = some true)) = some ex) :
    0 < autosaveCount pid s :=
  List.countP_pos_iff.mpr ⟨ex, List.mem_of_find?_eq_some h, List.find?_some h⟩

/-- One `saveCurrentPrompt(true)` call preserves distinct ids and the
at-most-one auto-save invariant, never lowers the count, and leaves at
least one auto-save whenever it performs one. -/
theorem save_auto_inv (now : Nat) (pid : String) (s : EditorState)
    (hfresh : mkVerId now ∉ idsOf s)
    (hnodup : (idsOf s).Nodup) (hcount : autosaveCount pid s ≤ 1) :
    (idsOf (saveCurrentPrompt now true s)).Nodup ∧
    autosaveCount pid (saveCurrentPrompt now true s) ≤ 1 ∧
    autosaveCount pid s ≤ autosaveCount pid (saveCurrentPrompt now true s) ∧
    (opDoesAutosave pid s (StoreOp.save now true) = true →
      1 ≤ autosaveCount pid (saveCurrentPrompt now true s)) := by
  unfold saveCurrentPrompt
  rcases optCases s.currentPrompt with hcp | ⟨cp, hcp⟩
  · rw [hcp]
    dsimp only []
    refine ⟨hnodup, hcount, Nat.le_refl _, ?_⟩
    intro hop
    simp [opDoesAutosave, hcp] at hop
  · rw [hcp]
    dsimp only []
    rw [if_pos rfl]
    rcases optCases (s.versions.find?
        (fun v => decide (v.promptId = cp.id ∧ v.isAutoSave = some true))) with
      hf | ⟨ex, hf⟩
    · rw [hf]
      dsimp only []
      refine ⟨?_, ?_, ?_, ?_⟩
      · rw [addVersion_ids]
        exact nodup_snoc hnodup hfresh
      · rw [addVersion_count]
        by_cases hpid : cp.id = pid
        · subst hpid
          rw [findAuto_none_count cp.id s hf]
          have hpred : autosavePred cp.id
              (⟨mkVerId now, cp.id, now, s.structure_, some true⟩ : Version) = true :=
            decide_eq_true ⟨rfl, rfl⟩
          rw [hpred, if_pos rfl]
        · have hpred : autosavePred pid
              (⟨mkVerId now, cp.id, now, s.structure_, some true⟩ : Version) = false := by
            apply decide_eq_false
            intro hco
            exact hpid hco.1
          rw [hpred, if_neg Bool.false_ne_true]
          omega
      · rw [addVersion_count]
        omega
      · intro hop
        simp [opDoesAutosave, hcp] at hop
        subst hop
        rw [addVersion_count, findAuto_none_count cp.id s hf]
        have hpred : autosavePred cp.id
            (⟨mkVerId now, cp.id, now, s.structure_, some true⟩ : Version) = true :=
          decide_eq_true ⟨rfl, rfl⟩
        rw [hpred, if_pos rfl]
    · rw [hf]
      dsimp only []
      have hk := updateVersion_keeps pid ex.id
        ⟨none, none, some now, some s.structure_, none⟩ rfl rfl rfl s
      refine ⟨?_, ?_, ?_, ?_⟩
      · rw [hk.1]; exact hnodup
      · rw [hk.2]; exact hcount
      · rw [hk.2]
      · intro hop
        simp [opDoesAutosave, hcp] at hop
        subst hop
        rw [hk.2]
        exact findAuto_some_pos cp.id s ex hf

/-- Switching prompts only touches the versions array through the flush. -/
theorem setCurrentPrompt_versions (defaultsOf : String → List (String × JSVal))
    (now : Nat) (p : Option Prompt) (s : EditorState) :
    (setCurrentPrompt defaultsOf now p s).versions = (flushPhase now s).versions := by
  cases p with
  | none => rfl
  | some np => rfl

/-- The auto-save flush of `setCurrentPrompt` preserves distinct ids and
the at-most-one auto-save invariant, never lowers the count, and leaves at
least one auto-save whenever it performs one. -/
theorem flush_inv (now : Nat) (pid : String) (p : Option Prompt) (s : EditorState)
    (hfresh : mkVerId now ∉ idsOf s)
    (hnodup : (idsOf s).Nodup) (hcount : autosaveCount pid s ≤ 1) :
    (idsOf (flushPhase now s)).Nodup ∧
    autosaveCount pid (flushPhase now s) ≤ 1 ∧
    autosaveCount pid s ≤ autosaveCount pid (flushPhase now s) ∧
    (opDoesAutosave pid s (StoreOp.switchTo now p) = true →
      1 ≤ autosaveCount pid (flushPhase now s)) := by
  unfold flushPhase
  rcases optCases s.currentPrompt with hcp | ⟨cp, hcp⟩
  · rw [hcp]
    dsimp only []
    refine ⟨hnodup, hcount, Nat.le_refl _, ?_⟩
    intro hop
    simp [opDoesAutosave, hcp] at hop
  · rw [hcp]
    dsimp only []
    by_cases hlen : s.structure_.length > 0
    · rw [if_pos hlen]
      unfold autoSaveStep
      dsimp only []
      rw [if_pos hlen]
      rcases optCases (s.versions.find?
          (fun v => decide (v.promptId = cp.id ∧ v.isAutoSave = some true))) with
        hf | ⟨ex, hf⟩
      · rw [hf]
        dsimp only []
        have hv1 : idsOf (setPromptUIState cp.id (flushPatchOf s cp) s) = idsOf s := rfl
        have hc1 : autosaveCount pid (setPromptUIState cp.id (flushPatchOf s cp) s) =
            autosaveCount pid s := rfl
        refine ⟨?_, ?_, ?_, ?_⟩
        · rw [addVersion_ids, hv1]
          exact nodup_snoc hnodup hfresh
        · rw [addVersion_count, hc1]
          by_cases hpid : cp.id = pid
          · subst hpid
            rw [findAuto_none_count cp.id s hf]
            have hpred : autosavePred cp.id
                (⟨mkVerId now, cp.id, now, s.structure_, some true⟩ : Version) = true :=
              decide_eq_true ⟨rfl, rfl⟩
            rw [hpred, if_pos rfl]
          · have hpred : autosavePred pid
                (⟨mkVerId now, cp.id, now, s.structure_, some true⟩ : Version) = false := by
              apply decide_eq_false
              intro hco
              exact hpid hco.1
            rw [hpred, if_neg Bool.false_ne_true]
            omega
        · rw [addVersion_count, hc1]
          omega
        · intro hop
          simp [opDoesAutosave, hcp, hlen] at hop
          subst hop
          rw [addVersion_count, hc1, findAuto_none_count cp.id s hf]
          have hpred : autosavePred cp.id
              (⟨mkVerId now, cp.id, now, s.structure_, some true⟩ : Version) = true :=
            decide_eq_true ⟨rfl, rfl⟩
          rw [hpred, if_pos rfl]
      · rw [hf]
        dsimp only []
        have hk := updateVersion_keeps pid ex.id
          ⟨none, none, some now, some s.structure_, none⟩ rfl rfl rfl
          (setPromptUIState cp.id (flushPatchOf s cp) s)
        have hv1 : idsOf (setPromptUIState cp.id (flushPatchOf s cp) s) = idsOf s := rfl
        have hc1 : autosaveCount pid (setPromptUIState cp.id (flushPatchOf s cp) s) =
            autosaveCount pid s := rfl
        refine ⟨?_, ?_, ?_, ?_⟩
        · rw [hk.1, hv1]; exact hnodup
        · rw [hk.2, hc1]; exact hcount
        · rw [hk.2, hc1]
        · intro hop
          simp [opDoesAutosave, hcp, hlen] at hop
          subst hop
          rw [hk.2, hc1]
          exact findAuto_some_pos cp.id s ex hf
    · rw [if_neg hlen]
      unfold autoSaveStep
      dsimp only []
      refine ⟨hnodup, hcount, Nat.le_refl _, ?_⟩
      intro hop
      simp [opDoesAutosave, hcp, hlen] at hop

/-- Filtering by a predicate implied by the counted one keeps the count. -/
theorem countP_filter_keep {p q : Version → Bool} :
    ∀ l : List Version, (∀ v ∈ l, p v = true → q v = true) →
      (l.filter q).countP p = l.countP p := by
  intro l
  induction l with
  | nil => intro _; rfl
  | cons a t ih =>
    intro h
    rw [List.filter_cons]
    have hih := ih (fun v hv => h v (List.mem_cons_of_mem a hv))
    by_cases hq : q a = true
    · rw [if_pos hq, List.countP_cons, List.countP_cons, hih]
    · rw [if_neg hq]
      have hpa : p a = false := by
        cases hpa' : p a
        · rfl
        · exact absurd (h a (List.mem_cons_self a t) hpa') hq
      rw [List.countP_cons, hih, hpa, if_neg Bool.false_ne_true]
      omega

/-- Deleting (by id) a version of a different prompt keeps the auto-save
count, provided ids are globally distinct. -/
theorem deleteVersion_count_other (pid : String) (s0 acc : EditorState) (a : Version)
    (hnodup : (idsOf s0).Nodup) (hsub : acc.versions.Sublist s0.versions)
    (ha : a ∈ s0.versions) (hap : a.promptId ≠ pid) :
    autosaveCount pid (deleteVersion a.id acc) = autosaveCount pid acc := by
  show (acc.versions.filter (fun v => decide ¬(v.id = a.id))).countP (autosavePred pid) =
    acc.versions.countP (autosavePred pid)
  apply countP_filter_keep
  intro v hv hpv
  have hvs0 : v ∈ s0.versions := List.Sublist.mem hv hsub
  have hprop := of_decide_eq_true hpv
  refine decide_eq_true ?_
  intro hid
  exact hap ((nodup_ids_inj hnodup hvs0 ha hid) ▸ hprop.1)

/-- Folding deletions of other prompts' versions keeps the auto-save count
and only shrinks the versions array. -/
theorem deleteFold_inv (pid : String) (s0 : EditorState)
    (hnodup : (idsOf s0).Nodup) :
    ∀ del : List Version, (∀ a ∈ del, a ∈ s0.versions ∧ a.promptId ≠ pid) →
      ∀ acc : EditorState, acc.versions.Sublist s0.versions →
        ((del.foldl (fun acc2 a => deleteVersion a.id acc2) acc).versions.Sublist
            s0.versions ∧
          autosaveCount pid (del.foldl (fun acc2 a => deleteVersion a.id acc2) acc) =
            autosaveCount pid acc) := by
  intro del
  induction del with
  | nil => intro _ acc hsub; exact ⟨hsub, rfl⟩
  | cons a t ih =>
    intro hdel acc hsub
    rcases hdel a (List.mem_cons_self a t) with ⟨ha0, hap⟩
    have hsub' : (deleteVersion a.id acc).versions.Sublist s0.versions :=
      (List.filter_sublist acc.versions).trans hsub
    have hrec := ih (fun b hb => hdel b (List.mem_cons_of_mem a hb))
      (deleteVersion a.id acc) hsub'
    rw [List.foldl_cons]
    refine ⟨hrec.1, ?_⟩
    rw [hrec.2]
    exact deleteVersion_count_other pid s0 acc a hnodup hsub ha0 hap

theorem insertDesc_length (v : Version) :
    ∀ l : List Version, (insertDesc v l).length = l.length + 1 := by
  intro l
  induction l with
  | nil => rfl
  | cons a t ih =>
    unfold insertDesc
    by_cases h : a.createdAt ≤ v.createdAt
    · rw [if_pos h]
      rfl
    · rw [if_neg h]
      rw [List.length_cons, List.length_cons, ih]

theorem sortDesc_length (l : List Version) :
    (sortByCreatedAtDesc l).length = l.length := by
  induction l with
  | nil => rfl
  | cons a t ih =>
    show (insertDesc a (sortByCreatedAtDesc t)).length = t.length + 1
    rw [insertDesc_length a (sortByCreatedAtDesc t), ih]

/-- One iteration of the cleanup loop keeps the tracked prompt's auto-save
count: for the tracked prompt the deletion guard cannot fire (its auto-save
list has length at most one), and other prompts' deletions cannot touch its
versions because ids are globally distinct. -/
theorem cleanupStep_inv (pid : String) (s0 : EditorState)
    (hnodup : (idsOf s0).Nodup) (hcount : autosaveCount pid s0 ≤ 1)
    (acc : EditorState) (promptId : String)
    (hsub : acc.versions.Sublist s0.versions) :
    (cleanupStep s0 acc promptId).versions.Sublist s0.versions ∧
    autosaveCount pid (cleanupStep s0 acc promptId) = autosaveCount pid acc := by
  unfold cleanupStep
  dsimp only []
  by_cases hlen : (sortByCreatedAtDesc (s0.versions.filter
      (fun v => decide (v.promptId = promptId ∧ v.isAutoSave = some true)))).length > 1
  · rw [if_pos hlen]
    by_cases hpp : promptId = pid
    · exfalso
      subst hpp
      have hle : (sortByCreatedAtDesc (s0.versions.filter
          (fun v => decide (v.promptId = promptId ∧ v.isAutoSave = some true)))).length ≤ 1 := by
        rw [sortDesc_length, ← List.countP_eq_length_filter]
        exact hcount
      omega
    · refine deleteFold_inv pid s0 hnodup _ ?_ acc hsub
      intro a ha
      have ha1 : a ∈ sortByCreatedAtDesc (s0.versions.filter
          (fun v => decide (v.promptId = promptId ∧ v.isAutoSave = some true))) :=
        List.mem_of_mem_drop ha
      have ha2 := mem_sortDesc.mp ha1
      have ha3 := List.mem_filter.mp ha2
      refine ⟨ha3.1, ?_⟩
      have hprop := of_decide_eq_true ha3.2
      rw [hprop.1]
      exact hpp
  · rw [if_neg hlen]
    exact ⟨hsub, rfl⟩

/-- `cleanupOldAutoSaves` keeps the auto-save count of a prompt that
already satisfies the at-most-one invariant. -/
theorem cleanup_inv (pid : String) (s : EditorState)
    (hnodup : (idsOf s).Nodup) (hcount : autosaveCount pid s ≤ 1) :
    (cleanupOldAutoSaves s).versions.Sublist s.versions ∧
    autosaveCount pid (cleanupOldAutoSaves s) = autosaveCount pid s := by
  have main : ∀ (pids : List String) (acc : EditorState),
      acc.versions.Sublist s.versions →
      ((pids.foldl (cleanupStep s) acc).versions.Sublist s.versions ∧
        autosaveCount pid (pids.foldl (cleanupStep s) acc) = autosaveCount pid acc) := by
    intro pids
    induction pids with
    | nil => intro acc h; exact ⟨h, rfl⟩
    | cons q qs ih =>
      intro acc hsub
      have hstep := cleanupStep_inv pid s hnodup hcount acc q hsub
      have hrec := ih (cleanupStep s acc q) hstep.1
      rw [List.foldl_cons]
      refine ⟨hrec.1, ?_⟩
      rw [hrec.2, hstep.2]
  exact main (firstDedup (s.versions.map (fun v => v.promptId))) s (List.Sublist.refl _)

/-- Any single claimed auto-save operation preserves the invariant. -/
theorem step_auto_inv (defaultsOf : String → List (String × JSVal)) (pid : String)
    (s : EditorState) (op : StoreOp) (hok : autoOpOK op = true)
    (hfresh : opFresh s op = true)
    (hnodup : (idsOf s).Nodup) (hcount : autosaveCount pid s ≤ 1) :
    (idsOf (stepOp defaultsOf s op)).Nodup ∧
    autosaveCount pid (stepOp defaultsOf s op) ≤ 1 ∧
    autosaveCount pid s ≤ autosaveCount pid (stepOp defaultsOf s op) ∧
    (opDoesAutosave pid s op = true →
      1 ≤ autosaveCount pid (stepOp defaultsOf s op)) := by
  cases op with
  | save now isAuto =>
    cases isAuto with
    | false => exact Bool.noConfusion hok
    | true =>
      have hnm : mkVerId now ∉ idsOf s := by simpa [opFresh] using hfresh
      dsimp only [stepOp]
      exact save_auto_inv now pid s hnm hnodup hcount
  | switchTo now p =>
    have hnm : mkVerId now ∉ idsOf s := by simpa [opFresh] using hfresh
    have hv := setCurrentPrompt_versions defaultsOf now p s
    have hids : idsOf (setCurrentPrompt defaultsOf now p s) =
        idsOf (flushPhase now s) :=
      congrArg (fun l => l.map (fun v => v.id)) hv
    have hcnt : autosaveCount pid (setCurrentPrompt defaultsOf now p s) =
        autosaveCount pid (flushPhase now s) :=
      congrArg (fun l => l.countP (autosavePred pid)) hv
    have h := flush_inv now pid p s hnm hnodup hcount
    dsimp only [stepOp]
    refine ⟨?_, ?_, ?_, ?_⟩
    · rw [hids]; exact h.1
    · rw [hcnt]; exact h.2.1
    · rw [hcnt]; exact h.2.2.1
    · intro hop
      rw [hcnt]
      exact h.2.2.2 hop
  | cleanup =>
    dsimp only [stepOp]
    have h := cleanup_inv pid s hnodup hcount
    refine ⟨?_, ?_, ?_, ?_⟩
    · have hsubids : ((cleanupOldAutoSaves s).versions.map (fun v => v.id)).Sublist
          (s.versions.map (fun v => v.id)) :=
        h.1.map (fun v => v.id)
      exact hnodup.sublist hsubids
    · rw [h.2]; exact hcount
    · rw [h.2]
    · intro hop
      exact Bool.noConfusion hop
  | edit id c => exact Bool.noConfusion hok
  | reset id => exact Bool.noConfusion hok

/-- The invariant carried along a whole trace of claimed operations. -/
theorem run_auto_inv (defaultsOf : String → List (String × JSVal)) (pid : String) :
    ∀ (ops : List StoreOp) (s : EditorState),
      (∀ op ∈ ops, autoOpOK op = true) → freshRun defaultsOf s ops = true →
      (idsOf s).Nodup → autosaveCount pid s ≤ 1 →
      ((idsOf (runOps defaultsOf s ops)).Nodup ∧
        autosaveCount pid (runOps defaultsOf s ops) ≤ 1 ∧
        autosaveCount pid s ≤ autosaveCount pid (runOps defaultsOf s ops) ∧
        (autosaveOccurred defaultsOf pid s ops = true →
          1 ≤ autosaveCount pid (runOps defaultsOf s ops))) := by
  intro ops
  induction ops with
  | nil =>
    intro s _ _ hn hc
    exact ⟨hn, hc, Nat.le_refl _, fun h => Bool.noConfusion h⟩
  | cons op ops ih =>
    intro s hok hfresh hn hc
    have hokop : autoOpOK op = true := hok op (List.mem_cons_self op ops)
    have hfr : opFresh s op = true ∧
        freshRun defaultsOf (stepOp defaultsOf s op) ops = true := by
      simpa [freshRun, Bool.and_eq_true] using hfresh
    have hstep := step_auto_inv defaultsOf pid s op hokop hfr.1 hn hc
    have hrec := ih (stepOp defaultsOf s op)
      (fun o ho => hok o (List.mem_cons_of_mem op ho)) hfr.2 hstep.1 hstep.2.1
    refine ⟨hrec.1, hrec.2.1, ?_, ?_⟩
    · exact Nat.le_trans hstep.2.2.1 hrec.2.2.1
    · intro hocc
      have hd : opDoesAutosave pid s op = true ∨
          autosaveOccurred defaultsOf pid (stepOp defaultsOf s op) ops = true := by
        simpa [autosaveOccurred, Bool.or_eq_true] using hocc
      rcases hd with h1 | h1
      · exact Nat.le_trans (hstep.2.2.2 h1) hrec.2.2.1
      · exact hrec.2.2.2 h1

/-- C1: starting from a state whose version ids are pairwise distinct and
which stores at most one auto-save version for the prompt, any sequence of
the claimed auto-save operations (`saveCurrentPrompt(true)`, the
`setCurrentPrompt` flush, `cleanupOldAutoSaves`) whose minted ids are fresh
leaves at most one auto-save version for that prompt, and exactly one once
some operation of the trace actually performed an auto-save for it. -/
theorem autosave_singleton (defaultsOf : String → List (String × JSVal))
    (pid : String) (s : EditorState) (ops : List StoreOp)
    (hok : ∀ op ∈ ops, autoOpOK op = true)
    (hfresh : freshRun defaultsOf s ops = true)
    (hnodup : (idsOf s).Nodup)
    (hcount : autosaveCount pid s ≤ 1) :
    autosaveCount pid (runOps defaultsOf s ops) ≤ 1 ∧
    (autosaveOccurred defaultsOf pid s ops = true →
      autosaveCount pid (runOps defaultsOf s ops) = 1) := by
  have h := run_auto_inv defaultsOf pid ops s hok hfresh hnodup hcount
  exact ⟨h.2.1, fun hocc => Nat.le_antisymm h.2.1 (h.2.2.2 hocc)⟩

def c1elem : StructuralElement := ⟨"z", "Z", true, "body", some true, none⟩

def c1prompt : Prompt := ⟨"pc", "PC", [], "", [], 0⟩

def c1state : EditorState :=
  ⟨[c1elem], some c1prompt, [], [c1prompt], [], [], [], [], [], [], []⟩

def c1ops : List StoreOp := [StoreOp.save 1 true, StoreOp.save 2 true, StoreOp.cleanup]

def c1defaults : String → List (String × JSVal) := fun _ => []

/-- C1 witness: two auto-saves followed by a cleanup on a fresh prompt
leave exactly one auto-save version. -/
theorem autosave_singleton_witness :
    (∀ op ∈ c1ops, autoOpOK op = true) ∧ freshRun c1defaults c1state c1ops = true ∧
    (idsOf c1state).Nodup ∧ autosaveCount ("pc") c1state ≤ 1 ∧
    autosaveOccurred c1defaults ("pc") c1state c1ops = true ∧
    autosaveCount ("pc") (runOps c1defaults c1state c1ops) = 1 :=
  ⟨by decide, by decide, by decide, by decide, by decide,
    (autosave_singleton c1defaults ("pc") c1state c1ops (by decide) (by decide)
      (by decide) (by decide)).2 (by decide)⟩

def w2elem : StructuralElement := ⟨"y", "Y", true, "orig", some true, none⟩

def w2prompt : Prompt := ⟨"q", "Q", [], "", [], 0⟩

def w2version : Version := ⟨"v9", "q", 3, [w2elem], some false⟩

def w2state : EditorState :=
  ⟨[], none, [], [w2prompt], [w2version], [], [], [], [], [], []⟩

/-- C2 witness: opening prompt `q` for the first time captures the
version's structure and the derived control defaults as baselines, and an
edit followed by a reset restores the originally loaded content. -/
theorem baseline_reset_correct_witness :
    baselineOf (setCurrentPrompt (fun _ => []) 5 (some w2prompt) w2state) ("q") =
      some (loadStructureFromVersions w2state w2prompt) ∧
    baselineCVOf (setCurrentPrompt (fun _ => []) 5 (some w2prompt) w2state) ("q") =
      some (controlDefaultsOf (fun _ => [])
        (loadStructureFromVersions w2state w2prompt)) ∧
    (∀ x ∈ (resetElementContent ("y") (applyContentEdits
        (setCurrentPrompt (fun _ => []) 5 (some w2prompt) w2state)
        [(("y"), ("edited"))])).structure_,
      x.id = ("y") → x.content = ("orig")) := by
  have h := baseline_reset_correct (fun _ => []) w2state w2prompt 5 (by decide) (by decide)
  refine ⟨h.1, h.2.1, ?_⟩
  intro x hx hxid
  exact h.2.2.2.2.2 [(("y"), ("edited"))] ("y") w2elem (by decide) x hx hxid

end PromptStruct
